/-
Verification of the AIImageRenamer batch file-processing pipeline.

This file gives a shallow embedding, in Lean 4, of the core subsystems of the
repository: the pattern-based name cleaner (`src/lib/helpers.ts`), the image id
generator and in-memory record store (`src/lib/storage.ts`,
`src/lib/services/image.service.ts`), the job tracker (`src/lib/jobs.ts` and the
job cancellation route), the scan / analyze / rename / cleanup pipeline routes,
and the filename collision-resolution loop.  JavaScript strings are modelled as
`List Char`, JS numbers that can become NaN/Infinity as an explicit sum type,
timestamps as abstract `Nat` ticks, and the MD5 content hash as an explicit
function parameter.  Theorems at the end of the file settle the specification
claims against these definitions.
-/
import Mathlib

namespace AIImageRenamer

/-! ## JS string primitives used by the name cleaner -/

/-- `path.extname`/`path.basename` pair for a plain filename (no slashes):
splits `cs` into the base name and the extension beginning at the last dot.
A dot at position 0 (dotfile) yields no extension, as in Node. -/
def splitExt (cs : List Char) : List Char × List Char :=
  match cs.reverse.findIdx? (fun c => c == '.') with
  | none => (cs, [])
  | some p =>
      let idx := cs.length - 1 - p
      if idx = 0 then (cs, []) else (cs.take idx, cs.drop idx)

/-- One character of the sanitizer `replace(/[^a-z0-9_]/g, '_')` (applied after
`toLowerCase`). -/
def lowerAlnumUnd (c : Char) : Char :=
  if ('a' ≤ c ∧ c ≤ 'z') ∨ ('0' ≤ c ∧ c ≤ '9') ∨ c = '_' then c else '_'

/-- `name.toLowerCase().replace(/[^a-z0-9_]/g, '_').slice(0, 50)`. -/
def sanitizeBase (cs : List Char) : List Char :=
  ((cs.map Char.toLower).map lowerAlnumUnd).take 50

/-! ## The prefix patterns of `generateCleanName`

Each JS regex in `PREFIX_PATTERNS` is anchored at the start of the string; we
model each as a function consuming the matched prefix and returning the rest,
or `none` when the pattern does not match.  All patterns consist of literals,
optional single characters and digit runs, for which greedy left-to-right
matching agrees with JS backtracking semantics. -/

/-- Case-insensitive literal match, returning the remainder. -/
def matchLitCI : List Char → List Char → Option (List Char)
  | [], cs => some cs
  | _ :: _, [] => none
  | a :: as, c :: cs => if c.toLower = a then matchLitCI as cs else none

/-- Optional single character (`c?` in the regex), case-insensitive, greedy. -/
def matchOptCI (a : Char) : List Char → List Char
  | [] => []
  | c :: cs => if c.toLower = a then cs else c :: cs

/-- Greedy run of digits (`\d*`): the digits and the rest. -/
def takeDigitsGreedy : List Char → List Char × List Char
  | [] => ([], [])
  | c :: cs =>
      if c.isDigit then
        let r := takeDigitsGreedy cs
        (c :: r.1, r.2)
      else ([], c :: cs)

/-- `\d+`: at least one digit. -/
def matchDigits1 (cs : List Char) : Option (List Char) :=
  match takeDigitsGreedy cs with
  | ([], _) => none
  | (_ :: _, rest) => some rest

/-- `\d{n}`: exactly `n` digits. -/
def matchDigitsExact : Nat → List Char → Option (List Char)
  | 0, cs => some cs
  | _ + 1, [] => none
  | n + 1, c :: cs => if c.isDigit then matchDigitsExact n cs else none

/-- Shared shape of the seven word-prefix patterns: `^<lit>_?\d+_?/i`. -/
def matchWordNum (lit : List Char) (cs : List Char) : Option (List Char) :=
  (matchLitCI lit cs).bind fun r =>
    (matchDigits1 (matchOptCI '_' r)).map (matchOptCI '_')

/-- `/^imgi?_?\d+_?/i` -/
def patImgI (cs : List Char) : Option (List Char) :=
  (matchLitCI ['i', 'm', 'g'] cs).bind fun r =>
    (matchDigits1 (matchOptCI '_' (matchOptCI 'i' r))).map (matchOptCI '_')

/-- `/^img_?\d+_?/i` -/
def patImg (cs : List Char) : Option (List Char) :=
  matchWordNum ['i', 'm', 'g'] cs

/-- `/^dsc_?\d+_?/i` -/
def patDsc (cs : List Char) : Option (List Char) :=
  matchWordNum ['d', 's', 'c'] cs

/-- `/^photo_?\d+_?/i` -/
def patPhoto (cs : List Char) : Option (List Char) :=
  matchWordNum ['p', 'h', 'o', 't', 'o'] cs

/-- `/^image_?\d+_?/i` -/
def patImage (cs : List Char) : Option (List Char) :=
  matchWordNum ['i', 'm', 'a', 'g', 'e'] cs

/-- `/^pic_?\d+_?/i` -/
def patPic (cs : List Char) : Option (List Char) :=
  matchWordNum ['p', 'i', 'c'] cs

/-- `/^screenshot_?\d+_?/i` -/
def patScreenshot (cs : List Char) : Option (List Char) :=
  matchWordNum ['s', 'c', 'r', 'e', 'e', 'n', 's', 'h', 'o', 't'] cs

/-- `/^\d{4}-\d{2}-\d{2}_?/` -/
def patDate (cs : List Char) : Option (List Char) :=
  (matchDigitsExact 4 cs).bind fun r =>
  (matchLitCI ['-'] r).bind fun r =>
  (matchDigitsExact 2 r).bind fun r =>
  (matchLitCI ['-'] r).bind fun r =>
  (matchDigitsExact 2 r).map (matchOptCI '_')

/-- `/^\d{8}_?\d*_?/` -/
def patNum8 (cs : List Char) : Option (List Char) :=
  (matchDigitsExact 8 cs).map fun r =>
    matchOptCI '_' (takeDigitsGreedy (matchOptCI '_' r)).2

/-- The fixed ordered pattern list `PREFIX_PATTERNS` of `helpers.ts`. -/
def PREFIX_PATTERNS : List (List Char → Option (List Char)) :=
  [patImgI, patImg, patDsc, patPhoto, patImage, patPic, patScreenshot,
   patDate, patNum8]

/-- `nameWithoutExt.replace(pattern, '')` for an anchored pattern: strip the
matched prefix, or return the string unchanged when there is no match. -/
def stripPattern (cs : List Char) (p : List Char → Option (List Char)) :
    List Char :=
  match p cs with
  | some rest => rest
  | none => cs

/-- `generateCleanName` from `src/lib/helpers.ts`.  Note that the source loop
assigns `cleanName = nameWithoutExt.replace(pattern, '')` for *each* pattern,
rebinding from `nameWithoutExt` every iteration; the fold below reproduces
that exactly (the accumulator is ignored by the step function). -/
def generateCleanName (originalName : String) (aiSuggestion : Option String) :
    Option String :=
  let nameWithoutExt := (splitExt originalName.data).1
  let cleanName :=
    PREFIX_PATTERNS.foldl (fun _ p => stripPattern nameWithoutExt p)
      originalName.data
  match aiSuggestion with
  | some ai => some (String.mk (sanitizeBase ai.data))
  | none =>
      if cleanName.length < 3 ∨ cleanName = nameWithoutExt then none
      else some (String.mk (sanitizeBase cleanName))

/-- What the source loop actually computes: only the last pattern of
`PREFIX_PATTERNS` (the 8-digit numeric prefix) can ever take effect, because
every loop iteration restarts from `nameWithoutExt`. -/
def generateCleanNameLastPattern (originalName : String) : Option String :=
  let nameWithoutExt := (splitExt originalName.data).1
  let cleanName := stripPattern nameWithoutExt patNum8
  if cleanName.length < 3 ∨ cleanName = nameWithoutExt then none
  else some (String.mk (sanitizeBase cleanName))

/-! ## Image records and the id generator (`src/lib/storage.ts`) -/

/-- One character of `originalName.replace(/[^a-zA-Z0-9._-]/g, '_')`. -/
def sanitizeIdChar (c : Char) : Char :=
  if ('a' ≤ c ∧ c ≤ 'z') ∨ ('A' ≤ c ∧ c ≤ 'Z') ∨ ('0' ≤ c ∧ c ≤ '9') ∨
      c = '.' ∨ c = '_' ∨ c = '-' then c
  else '_'

/-- `generateImageId` from `storage.ts`:
`hash.substring(0, 8) + '_' + originalName.replace(/[^a-zA-Z0-9._-]/g, '_').substring(0, 50)`. -/
def generateImageId (hash originalName : String) : String :=
  String.mk (hash.data.take 8) ++ "_" ++
    String.mk ((originalName.data.map sanitizeIdChar).take 50)

/-- The `ImageData` record of `storage.ts` (timestamps as abstract `Nat`
ticks; the free-form `metadata` bag and the `config`-style blobs are not
modelled, no claim mentions them). -/
structure ImageData where
  id : String := ""
  projectId : String := ""
  originalName : String := ""
  currentName : String := ""
  path : String := ""
  size : Nat := 0
  hash : String := ""
  extension : String := ""
  scannedAt : Nat := 0
  status : String := "scanned"
  aiDescription : Option String := none
  suggestedName : Option String := none
  patternCleanName : Option String := none
  isDuplicate : Bool := false
  duplicateOf : Option (List String) := none
  renamed : Bool := false
  analyzedAt : Option Nat := none
  renamedAt : Option Nat := none
  storageUrl : Option String := none
  storagePath : Option String := none
deriving DecidableEq, Repr

/-- The in-memory record store `inMemoryImages : Map<string, ImageData>`,
keyed by image id, as an association list in insertion order. -/
def ImageStore : Type := List (String × ImageData)

/-- `Map.set`: overwrite the existing entry for the key, else append. -/
def storeSet (store : List (String × ImageData)) (key : String)
    (img : ImageData) : List (String × ImageData) :=
  if store.any (fun e => e.1 == key) then
    store.map (fun e => if e.1 == key then (e.1, img) else e)
  else
    store ++ [(key, img)]

/-- `Map.get`: first entry for the key. -/
def storeGet (store : List (String × ImageData)) (key : String) :
    Option ImageData :=
  (store.find? (fun e => e.1 == key)).map (fun e => e.2)

/-- `saveImages` (in-memory branch of `image.service.ts`): for each image,
compute its id from `(hash, originalName)`, stamp `id` and `projectId`, and
`set` it into the store. -/
def saveImagesMem (projectId : String) (images : List ImageData)
    (store : List (String × ImageData)) : List (String × ImageData) :=
  images.foldl
    (fun st img =>
      let imageId := generateImageId img.hash img.originalName
      storeSet st imageId { img with id := imageId, projectId := projectId })
    store

/-- `clearProjectImages` (in-memory branch): delete every entry whose record
belongs to the project. -/
def clearProjectImagesMem (projectId : String)
    (store : List (String × ImageData)) : List (String × ImageData) :=
  store.filter (fun e => !(e.2.projectId == projectId))

/-! ## The job tracker (`src/lib/jobs.ts`) -/

inductive JobStatus
  | pending
  | running
  | completed
  | failed
  | cancelled
deriving DecidableEq, Repr

inductive JobType
  | scan
  | analyze
  | rename
  | cleanup
deriving DecidableEq, Repr

/-- Rendering of a `JobType`, for the status-message templates. -/
def JobType.str : JobType → String
  | .scan => "scan"
  | .analyze => "analyze"
  | .rename => "rename"
  | .cleanup => "cleanup"

/-- A JS number as produced by `Math.round((p / t) * 100)`: a finite integer,
`NaN` (`0 / 0`), or `Infinity` (`p / 0` with `p > 0`). -/
inductive JsNum
  | nan
  | inf
  | val (n : Int)
deriving DecidableEq, Repr

/-- `Math.round((processed / total) * 100)` over exact rationals:
round-half-up `⌊100 p / t + 1/2⌋ = (200 p + t) / (2 t)` in `Nat` division. -/
def progRound (processed total : Nat) : Nat :=
  (200 * processed + total) / (2 * total)

/-- The `progress` field written by `updateJobProgress`. -/
def jobProgress (processed total : Nat) : JsNum :=
  if total = 0 then (if processed = 0 then .nan else .inf)
  else .val (progRound processed total)

/-- A per-item `JobTarget` entry. The `data` payload (an arbitrary JS object)
is not modelled; no claim mentions it. -/
structure JobTarget where
  name : String
  status : JobStatus
  startedAt : Option Nat := none
  completedAt : Option Nat := none
  error : Option String := none
deriving DecidableEq, Repr

/-- The `currentTarget` argument of `updateJobProgress`; `error := none`
models the key being absent from the object literal. -/
structure CurrentTarget where
  name : String
  status : JobStatus
  error : Option String := none
deriving DecidableEq, Repr

/-- The `update` argument of `updateJobProgress`; `none` models an absent
key. -/
structure ProgressUpdate where
  processedItems : Option Nat := none
  successCount : Option Nat := none
  errorCount : Option Nat := none
  statusMessage : Option String := none
  currentTarget : Option CurrentTarget := none
deriving DecidableEq, Repr

/-- The `Job` record (`priority` is the literal `'normal'`; the opaque
`config` map is not modelled). -/
structure Job where
  id : String
  projectId : String
  projectName : String
  type : JobType
  status : JobStatus
  priority : String
  progress : JsNum
  totalItems : Nat
  processedItems : Nat
  successCount : Nat
  errorCount : Nat
  createdAt : Nat
  startedAt : Option Nat
  completedAt : Option Nat
  duration : Option Int
  statusMessage : String
  targets : List JobTarget
  errors : List String
deriving DecidableEq, Repr

/-- `createJob` (the generated id is passed in explicitly; the source builds
it from the clock and a random suffix). -/
def createJob (jobId projectId projectName : String) (ty : JobType)
    (totalItems : Nat) (now : Nat) : Job :=
  { id := jobId
    projectId := projectId
    projectName := projectName
    type := ty
    status := .pending
    priority := "normal"
    progress := .val 0
    totalItems := totalItems
    processedItems := 0
    successCount := 0
    errorCount := 0
    createdAt := now
    startedAt := none
    completedAt := none
    duration := none
    statusMessage := "Job created: " ++ ty.str ++ " " ++ toString totalItems
      ++ " items"
    targets := []
    errors := [] }

/-- `startJob`: unconditionally sets `status = 'running'` and stamps
`startedAt`. -/
def startJob (now : Nat) (j : Job) : Job :=
  { j with
    status := .running
    startedAt := some now
    statusMessage := "Processing " ++ j.type.str ++ "..." }

/-- Update of the first target whose `name` matches (the source uses
`targets.find(...)` and mutates the found entry). -/
def updateFirstTarget (nm : String) (f : JobTarget → JobTarget) :
    List JobTarget → List JobTarget
  | [] => []
  | t :: rest =>
      if t.name == nm then f t :: rest else t :: updateFirstTarget nm f rest

/-- The target-upsert part of `updateJobProgress`: `Object.assign` merge when
a target with the name exists (absent keys of the update keep the existing
value), else append a fresh target with `startedAt = now`. -/
def upsertTarget (now : Nat) (ct : CurrentTarget) (targets : List JobTarget) :
    List JobTarget :=
  if targets.any (fun t => t.name == ct.name) then
    updateFirstTarget ct.name
      (fun t =>
        let t' : JobTarget :=
          { t with
            status := ct.status
            error := match ct.error with
              | some e => some e
              | none => t.error }
        if ct.status = .completed ∨ ct.status = .failed then
          { t' with completedAt := some now }
        else t')
      targets
  else
    targets ++ [{ name := ct.name, status := ct.status, error := ct.error,
                  startedAt := some now, completedAt := none }]

/-- `updateJobProgress` on a job known to the tracker.  Field updates happen
in source order; `if (update.statusMessage)` is a JS truthiness test, so an
empty string is ignored. -/
def updateJobProgress (now : Nat) (u : ProgressUpdate) (j : Job) : Job :=
  let j :=
    match u.processedItems with
    | some p =>
        { j with processedItems := p, progress := jobProgress p j.totalItems }
    | none => j
  let j :=
    match u.successCount with
    | some s => { j with successCount := s }
    | none => j
  let j :=
    match u.errorCount with
    | some e => { j with errorCount := e }
    | none => j
  let j :=
    match u.statusMessage with
    | some m => if m = "" then j else { j with statusMessage := m }
    | none => j
  match u.currentTarget with
  | none => j
  | some ct =>
      let j := { j with targets := upsertTarget now ct j.targets }
      match ct.error with
      | some e => { j with errors := j.errors ++ [ct.name ++ ": " ++ e] }
      | none => j

/-- The `status` parameter of `completeJob` is restricted to
`'completed' | 'failed'`. -/
inductive TerminalStatus
  | completed
  | failed
deriving DecidableEq, Repr

def TerminalStatus.toStatus : TerminalStatus → JobStatus
  | .completed => .completed
  | .failed => .failed

/-- `completeJob`: stamps `completedAt`, forces `progress = 100`, computes
`duration` when the job was started, and falls back to a summary message
when none is supplied (`||`, so an empty string also falls back). -/
def completeJob (now : Nat) (ts : TerminalStatus) (msg : Option String)
    (j : Job) : Job :=
  let j := { j with
    status := ts.toStatus
    completedAt := some now
    progress := .val 100 }
  let j :=
    match j.startedAt with
    | some s => { j with duration := some ((now : Int) - (s : Int)) }
    | none => j
  let defaultMsg :=
    match ts with
    | .completed =>
        "Completed: " ++ toString j.successCount ++ " succeeded, " ++
          toString j.errorCount ++ " failed"
    | .failed => "Failed: " ++ toString j.errorCount ++ " errors"
  { j with
    statusMessage :=
      match msg with
      | some m => if m = "" then defaultMsg else m
      | none => defaultMsg }

/-- The cancellation path of `DELETE /api/jobs/[jobId]`: only a pending or
running job is marked cancelled; terminal jobs are left unchanged. -/
def cancelJob (now : Nat) (j : Job) : Job :=
  if j.status = .pending ∨ j.status = .running then
    { j with
      status := .cancelled
      completedAt := some now
      statusMessage := "Job cancelled by user" }
  else j

/-! ## The scan pipeline (`POST /api/projects/[projectId]/scan`) -/

/-- A file of the scanned folder: its name and raw bytes.  `fs.stat().size`
is the byte count; the MD5 digest is an explicit function parameter of the
pipeline. -/
structure FsFile where
  name : String
  bytes : List Nat
deriving DecidableEq, Repr

/-- `path.extname(file).toLowerCase()`. -/
def extLower (name : String) : String :=
  String.mk ((splitExt name.data).2.map Char.toLower)

/-- The fresh record the scan loop builds for one file before the
merge-forward block (`aiDescription`/`suggestedName` null, `patternCleanName`
from `generateCleanName`, `status 'scanned'`). -/
def scanFileFresh (md5 : List Nat → String) (projectId folder : String)
    (now : Nat) (f : FsFile) : ImageData :=
  { id := ""
    projectId := projectId
    originalName := f.name
    currentName := f.name
    path := folder ++ "/" ++ f.name
    size := f.bytes.length
    hash := md5 f.bytes
    extension := extLower f.name
    scannedAt := now
    status := "scanned"
    aiDescription := none
    suggestedName := none
    patternCleanName := generateCleanName f.name none
    isDuplicate := false
    duplicateOf := none
    renamed := false
    analyzedAt := none
    renamedAt := none
    storageUrl := none
    storagePath := none }

/-- Lookup in the `existingByHash` index: the map is built skipping records
with a falsy (empty) hash, so a falsy key finds nothing. -/
def existingForHash (existing : List ImageData) (h : String) :
    List ImageData :=
  if h = "" then [] else existing.filter (fun i => i.hash == h)

/-- The merge-forward block of the scan loop: prefer an existing record
matching by path, then by current/original name, then the first of the hash
bucket, and copy its AI/rename-derived fields onto the fresh record
(`??`, so a present value always wins; `status`/`renamed`/`isDuplicate` are
never nullish and are copied outright; `analyzedAt` falls back to the fresh
record's `scannedAt`). -/
def mergeExisting (existingList : List ImageData) (filePath fname : String)
    (fresh : ImageData) : ImageData :=
  match ((existingList.find? (fun i => i.path == filePath)).orElse fun _ =>
        existingList.find? (fun i =>
          i.currentName == fname || i.originalName == fname)).orElse
      (fun _ => existingList.head?) with
  | none => fresh
  | some ex =>
      { fresh with
        aiDescription := ex.aiDescription.orElse fun _ => fresh.aiDescription
        suggestedName := ex.suggestedName.orElse fun _ => fresh.suggestedName
        patternCleanName :=
          ex.patternCleanName.orElse fun _ => fresh.patternCleanName
        status := ex.status
        analyzedAt := some (ex.analyzedAt.getD fresh.scannedAt)
        renamed := ex.renamed
        renamedAt := ex.renamedAt.orElse fun _ => fresh.renamedAt
        isDuplicate := ex.isDuplicate
        duplicateOf := ex.duplicateOf.orElse fun _ => fresh.duplicateOf
        storageUrl := ex.storageUrl.orElse fun _ => fresh.storageUrl
        storagePath := ex.storagePath.orElse fun _ => fresh.storagePath }

/-- One insertion into the `duplicateHashes` map (insertion order preserved,
names appended per hash). -/
def addToBucket (acc : List (String × List String)) (h nm : String) :
    List (String × List String) :=
  if acc.any (fun p => p.1 == h) then
    acc.map (fun p => if p.1 == h then (p.1, p.2 ++ [nm]) else p)
  else
    acc ++ [(h, [nm])]

/-- The `duplicateHashes` map after the scan loop. -/
def buildBuckets (md5 : List Nat → String) (files : List FsFile) :
    List (String × List String) :=
  files.foldl (fun acc f => addToBucket acc (md5 f.bytes) f.name) []

/-- Duplicate marking for one bucket applied to one record. -/
def markStep (p : String × List String) (img : ImageData) : ImageData :=
  if p.2.length > 1 ∧ img.hash = p.1 then
    { img with
      isDuplicate := true
      duplicateOf := some (p.2.filter (fun f => !(f == img.originalName))) }
  else img

/-- The duplicate-marking pass over the collected records. -/
def markDuplicates (buckets : List (String × List String))
    (images : List ImageData) : List ImageData :=
  buckets.foldl (fun imgs p => imgs.map (markStep p)) images

/-- State of the scan loop: the collected records, the job and
`processedCount`. -/
structure ScanLoopState where
  images : List ImageData
  job : Job
  processedCount : Nat

/-- One iteration of the scan file loop (cloud storage disabled, the file
readable): progress update, fresh record, merge-forward, success update. -/
def scanStep (md5 : List Nat → String) (projectId folder : String)
    (now : Nat) (existing : List ImageData) (s : ScanLoopState) (f : FsFile) :
    ScanLoopState :=
  let j := updateJobProgress now
    { processedItems := some s.processedCount
      statusMessage := some ("Scanning: " ++ f.name)
      currentTarget := some { name := f.name, status := .running } } s.job
  let fresh := scanFileFresh md5 projectId folder now f
  let merged :=
    mergeExisting (existingForHash existing fresh.hash) fresh.path f.name fresh
  let images := s.images ++ [merged]
  let j := updateJobProgress now
    { successCount := some images.length
      currentTarget := some { name := f.name, status := .completed } } j
  { images := images, job := j, processedCount := s.processedCount + 1 }

/-- Result of a scan run: the whole record store afterwards, the terminal
job, the `imageCount` of the response, and whether the run succeeded. -/
structure ScanResult where
  store : List (String × ImageData)
  job : Job
  imageCount : Nat
  ok : Bool
deriving Repr

/-- The scan route: create and start the job, index the project's existing
records by hash, clear them, run the file loop, mark duplicates, bulk-save,
and complete the job.  `crashAfter = some k` injects an exception thrown
after `k` files — between the clear and the bulk save — whose `catch`
completes the job as failed without restoring any record. -/
def scanPipeline (md5 : List Nat → String)
    (jobId projectId projectName folder : String) (now : Nat)
    (store0 : List (String × ImageData)) (files : List FsFile)
    (crashAfter : Option Nat) : ScanResult :=
  let job0 := startJob now
    (createJob jobId projectId projectName .scan files.length now)
  let existingImages :=
    (store0.filter (fun e => e.2.projectId == projectId)).map (fun e => e.2)
  let cleared := clearProjectImagesMem projectId store0
  let loopFiles :=
    match crashAfter with
    | some k => files.take k
    | none => files
  let final := loopFiles.foldl
    (scanStep md5 projectId folder now existingImages)
    { images := [], job := job0, processedCount := 0 }
  match crashAfter with
  | some _ =>
      { store := cleared
        job := completeJob now .failed (some "Scan failed") final.job
        imageCount := 0
        ok := false }
  | none =>
      let buckets := buildBuckets md5 loopFiles
      let marked := markDuplicates buckets final.images
      { store := saveImagesMem projectId marked cleared
        job := completeJob now .completed
          (some ("Scanned " ++ toString marked.length ++ " images")) final.job
        imageCount := marked.length
        ok := true }

/-! ## The batch pipelines (analyze / rename / cleanup routes)

Each route runs a sequential item loop over a job; the per-item disk / AI /
store effects are abstracted into an outcome per item, while the job-tracker
interaction and the terminal-status decision replicate the source.  An
optional `cancelAt` index injects the external `DELETE /api/jobs/[jobId]`
cancellation between two items of the running loop. -/

/-- Outcome of one rename-batch item.  `skipFail` is the
`continue`-without-tracker-update path (image not found / no suggested
name); `caughtFail` is the `catch` path, which reports the error to the
tracker. -/
inductive RenameItemOutcome
  | ok (imageId newName : String)
  | skipFail (imageId err : String)
  | caughtFail (imageId err : String)
deriving DecidableEq, Repr

def RenameItemOutcome.imageId : RenameItemOutcome → String
  | .ok i _ => i
  | .skipFail i _ => i
  | .caughtFail i _ => i

def RenameItemOutcome.isOk : RenameItemOutcome → Bool
  | .ok _ _ => true
  | _ => false

/-- Running state of a batch loop: the job plus the route's local
`successCount` / `errorCount` / `results`. -/
structure BatchState where
  job : Job
  successCount : Nat
  errorCount : Nat
  results : List (String × Bool)
deriving Repr

/-- One iteration of the rename-batch loop (`i` is the loop index). -/
def renameBatchItem (now total : Nat) (s : BatchState)
    (io : Nat × RenameItemOutcome) : BatchState :=
  let i := io.1
  let o := io.2
  let j := updateJobProgress now
    { processedItems := some i
      successCount := some s.successCount
      errorCount := some s.errorCount
      statusMessage := some ("Renaming image " ++ toString (i + 1) ++ "/" ++
        toString total)
      currentTarget := some { name := o.imageId, status := .running } } s.job
  match o with
  | .ok imageId _newName =>
      let sc := s.successCount + 1
      let j := updateJobProgress now
        { successCount := some sc
          currentTarget := some { name := imageId, status := .completed } } j
      { job := j, successCount := sc, errorCount := s.errorCount,
        results := s.results ++ [(imageId, true)] }
  | .skipFail imageId _e =>
      { job := j, successCount := s.successCount,
        errorCount := s.errorCount + 1,
        results := s.results ++ [(imageId, false)] }
  | .caughtFail imageId e =>
      let ec := s.errorCount + 1
      let j := updateJobProgress now
        { errorCount := some ec
          currentTarget :=
            some { name := imageId, status := .failed, error := some e } } j
      { job := j, successCount := s.successCount, errorCount := ec,
        results := s.results ++ [(imageId, false)] }

/-- The rename-batch route over its item outcomes.  The loop itself never
reads the job's status; `cancelAt = some i` applies the external
cancellation to the job just before item `i`.  The terminal decision is
`errorCount === targetIds.length ? 'failed' : 'completed'`. -/
def runRenameBatch (jobId projectId projectName : String) (now : Nat)
    (items : List RenameItemOutcome) (cancelAt : Option Nat) : BatchState :=
  let job0 := startJob now
    (createJob jobId projectId projectName .rename items.length now)
  let final := (items.enumFrom 0).foldl
    (fun s io =>
      let s :=
        if cancelAt = some io.1 then { s with job := cancelJob now s.job }
        else s
      renameBatchItem now items.length s io)
    { job := job0, successCount := 0, errorCount := 0, results := [] }
  { final with
    job := completeJob now
      (if final.errorCount = items.length then .failed else .completed)
      (some ("Renamed " ++ toString final.successCount ++ " files, " ++
        toString final.errorCount ++ " failed"))
      final.job }

/-- Outcome of one analyze-batch item; every failure path of the source
reports the error to the tracker. -/
inductive AnalyzeItemOutcome
  | ok (imageId suggestedName : String)
  | fail (imageId err : String)
deriving DecidableEq, Repr

def AnalyzeItemOutcome.imageId : AnalyzeItemOutcome → String
  | .ok i _ => i
  | .fail i _ => i

def AnalyzeItemOutcome.isOk : AnalyzeItemOutcome → Bool
  | .ok _ _ => true
  | .fail _ _ => false

/-- One iteration of the analyze-batch loop. -/
def analyzeBatchItem (now total : Nat) (s : BatchState)
    (io : Nat × AnalyzeItemOutcome) : BatchState :=
  let i := io.1
  let o := io.2
  let j := updateJobProgress now
    { processedItems := some i
      successCount := some s.successCount
      errorCount := some s.errorCount
      statusMessage := some ("Analyzing image " ++ toString (i + 1) ++ "/" ++
        toString total)
      currentTarget := some { name := o.imageId, status := .running } } s.job
  match o with
  | .ok imageId _nm =>
      let sc := s.successCount + 1
      let j := updateJobProgress now
        { successCount := some sc
          currentTarget := some { name := imageId, status := .completed } } j
      { job := j, successCount := sc, errorCount := s.errorCount,
        results := s.results ++ [(imageId, true)] }
  | .fail imageId e =>
      let ec := s.errorCount + 1
      let j := updateJobProgress now
        { errorCount := some ec
          currentTarget :=
            some { name := imageId, status := .failed, error := some e } } j
      { job := j, successCount := s.successCount, errorCount := ec,
        results := s.results ++ [(imageId, false)] }

/-- The analyze-batch route over its item outcomes; terminal decision
`errorCount === imageIds.length ? 'failed' : 'completed'`. -/
def runAnalyzeBatch (jobId projectId projectName : String) (now : Nat)
    (items : List AnalyzeItemOutcome) (cancelAt : Option Nat) : BatchState :=
  let job0 := startJob now
    (createJob jobId projectId projectName .analyze items.length now)
  let final := (items.enumFrom 0).foldl
    (fun s io =>
      let s :=
        if cancelAt = some io.1 then { s with job := cancelJob now s.job }
        else s
      analyzeBatchItem now items.length s io)
    { job := job0, successCount := 0, errorCount := 0, results := [] }
  { final with
    job := completeJob now
      (if final.errorCount = items.length then .failed else .completed)
      (some ("Analyzed " ++ toString final.successCount ++ " images, " ++
        toString final.errorCount ++ " failed"))
      final.job }

/-- One iteration of the cleanup-duplicates loop: the item is the duplicate
record's id together with whether `deleteImage` succeeded. -/
def cleanupItem (now total : Nat) (s : BatchState) (io : Nat × String × Bool) :
    BatchState :=
  let i := io.1
  let imageId := io.2.1
  let okItem := io.2.2
  let j := updateJobProgress now
    { processedItems := some i
      successCount := some s.successCount
      errorCount := some s.errorCount
      statusMessage := some ("Removing duplicate " ++ toString (i + 1) ++
        "/" ++ toString total)
      currentTarget := some { name := imageId, status := .running } } s.job
  if okItem then
    let sc := s.successCount + 1
    let j := updateJobProgress now
      { successCount := some sc
        currentTarget := some { name := imageId, status := .completed } } j
    { job := j, successCount := sc, errorCount := s.errorCount,
      results := s.results ++ [(imageId, true)] }
  else
    let ec := s.errorCount + 1
    let j := updateJobProgress now
      { errorCount := some ec
        currentTarget :=
          some { name := imageId, status := .failed,
                 error := some "delete failed" } } j
    { job := j, successCount := s.successCount, errorCount := ec,
      results := s.results ++ [(imageId, false)] }

/-- The cleanup-duplicates route over its per-duplicate outcomes; terminal
decision `errorCount > 0 ? 'failed' : 'completed'`. -/
def runCleanup (jobId projectId projectName : String) (now : Nat)
    (items : List (String × Bool)) : BatchState :=
  let job0 := startJob now
    (createJob jobId projectId projectName .cleanup items.length now)
  let final := (items.enumFrom 0).foldl
    (fun s io => cleanupItem now items.length s io)
    { job := job0, successCount := 0, errorCount := 0, results := [] }
  { final with
    job := completeJob now
      (if final.errorCount > 0 then .failed else .completed)
      (some ("Removed " ++ toString final.successCount ++ " duplicates, " ++
        toString final.errorCount ++ " failed"))
      final.job }

/-! ## Filename collision resolution (rename routes) -/

/-- The candidate probed at step `n`: `base+ext`, then `base_1+ext`,
`base_2+ext`, … (the source's `counter` starts at 1 after the bare name). -/
def candidateName (base ext : String) (n : Nat) : String :=
  if n = 0 then base ++ ext else base ++ "_" ++ toString n ++ ext

/-- The `while (true) { fs.access ... }` probe loop, with explicit fuel. -/
def probeLoop (dir : List String) (base ext : String) :
    Nat → Nat → Nat
  | 0, n => n
  | fuel + 1, n =>
      if candidateName base ext n ∈ dir then probeLoop dir base ext fuel (n + 1)
      else n

/-- Collision resolution against the directory listing `dir`: probe
candidates in order until one is unused.  `dir.length + 1` probes always
suffice when some candidate in that range is free. -/
def resolveCollision (dir : List String) (base ext : String) : String :=
  candidateName base ext (probeLoop dir base ext (dir.length + 1) 0)

/-! ## Derived views used to state the claims -/

/-- The duplicate-marking pass applied pointwise to a single record. -/
def applyMark (buckets : List (String × List String)) (img : ImageData) :
    ImageData :=
  buckets.foldl (fun im p => markStep p im) img

/-- The record the scan loop produces for one file (fresh record plus
merge-forward), before duplicate marking. -/
def scanRecord (md5 : List Nat → String) (projectId folder : String)
    (now : Nat) (existing : List ImageData) (f : FsFile) : ImageData :=
  let fresh := scanFileFresh md5 projectId folder now f
  mergeExisting (existingForHash existing fresh.hash) fresh.path f.name fresh

/-- The `(id, record)` entry `saveImages` writes for one image. -/
def stampRecord (projectId : String) (img : ImageData) :
    String × ImageData :=
  let imageId := generateImageId img.hash img.originalName
  (imageId, { img with id := imageId, projectId := projectId })

/-- The ids a scan of `files` assigns, in scan order: each id is the pure
function `generateImageId` of the file's content hash and name. -/
def scanIds (md5 : List Nat → String) (files : List FsFile) : List String :=
  files.map fun f => generateImageId (md5 f.bytes) f.name

/-- The successive values of the `progress` field along a sequence of
`updateJobProgress` calls carrying only `processedItems`. -/
def progressUpdatesTrace (now : Nat) (j : Job) : List Nat → List JsNum
  | [] => []
  | p :: ps =>
      let j' := updateJobProgress now { processedItems := some p } j
      j'.progress :: progressUpdatesTrace now j' ps

/-! # Theorems

Shared helper lemmas first, then one theorem per claim (with a witness or a
counterexample where the claim's status requires one). -/

/-! ## Tracker helper lemmas -/

theorem completeJob_status (now : Nat) (ts : TerminalStatus)
    (msg : Option String) (j : Job) :
    (completeJob now ts msg j).status = ts.toStatus := by
  unfold completeJob
  cases j.startedAt <;> cases msg <;> simp

theorem updateJobProgress_status (now : Nat) (u : ProgressUpdate) (j : Job) :
    (updateJobProgress now u j).status = j.status := by
  rcases u with ⟨pi, sc, ec, sm, ct⟩
  unfold updateJobProgress
  cases pi <;> cases sc <;> cases ec <;> cases sm <;>
    rcases ct with _ | ⟨n, st, er⟩ <;> dsimp only <;> (try cases er) <;>
    (repeat' split) <;> rfl

theorem updateJobProgress_completedAt (now : Nat) (u : ProgressUpdate)
    (j : Job) :
    (updateJobProgress now u j).completedAt = j.completedAt := by
  rcases u with ⟨pi, sc, ec, sm, ct⟩
  unfold updateJobProgress
  cases pi <;> cases sc <;> cases ec <;> cases sm <;>
    rcases ct with _ | ⟨n, st, er⟩ <;> dsimp only <;> (try cases er) <;>
    (repeat' split) <;> rfl

theorem updateJobProgress_totalItems (now : Nat) (u : ProgressUpdate)
    (j : Job) :
    (updateJobProgress now u j).totalItems = j.totalItems := by
  rcases u with ⟨pi, sc, ec, sm, ct⟩
  unfold updateJobProgress
  cases pi <;> cases sc <;> cases ec <;> cases sm <;>
    rcases ct with _ | ⟨n, st, er⟩ <;> dsimp only <;> (try cases er) <;>
    (repeat' split) <;> rfl

theorem updateJobProgress_processed_progress (now : Nat) (p : Nat) (j : Job) :
    (updateJobProgress now { processedItems := some p } j).progress =
      jobProgress p j.totalItems := rfl

/-! ## C1 — pattern cleaning -/

/-- C1, counterexample: the claim asserts `"IMG_2045.jpg"` pattern-cleans to
base `"2045"` and `"imgi_65_sunset.jpg"` to `"sunset"`; on the code both
return `null`, because each loop iteration restarts from `nameWithoutExt`
and only the last pattern (`^\d{8}_?\d*_?`) can take effect, which matches
neither name. -/
theorem C1_counterexample :
    generateCleanName "IMG_2045.jpg" none ≠ some "2045"
    ∧ generateCleanName "imgi_65_sunset.jpg" none ≠ some "sunset"
    ∧ generateCleanName "IMG_2045.jpg" none = none
    ∧ generateCleanName "imgi_65_sunset.jpg" none = none := by
  refine ⟨by decide, by decide, by decide, by decide⟩

/-- C1 (amended): with a null AI suggestion, `generateCleanName` applies
every pattern to the extension-stripped base but keeps only the result of
the **last** pattern of the list (the 8-digit numeric prefix), so the other
eight patterns never take effect; it returns `null` exactly when that last
pattern leaves the base unchanged or the cleaned base is shorter than 3
characters.  `"IMG_2045.jpg"` and `"imgi_65_sunset.jpg"` therefore yield
`null`, `"20240101_beach.jpg"` yields `"beach"`, and a name with no matching
prefix pattern yields `null`. -/
theorem C1_pattern_clean_last_pattern_only :
    (∀ name : String,
      generateCleanName name none = generateCleanNameLastPattern name)
    ∧ generateCleanName "IMG_2045.jpg" none = none
    ∧ generateCleanName "imgi_65_sunset.jpg" none = none
    ∧ generateCleanName "20240101_beach.jpg" none = some "beach"
    ∧ generateCleanName "sunset.jpg" none = none := by
  refine ⟨fun name => rfl, by decide, by decide, by decide, by decide⟩

/-! ## C7 — collision-safe rename -/

theorem probeLoop_eq (dir : List String) (base ext : String) (k : Nat)
    (hmem : ∀ i, i < k → candidateName base ext i ∈ dir)
    (hfree : candidateName base ext k ∉ dir) :
    ∀ fuel start : Nat, start ≤ k → k ≤ start + fuel →
      probeLoop dir base ext fuel start = k := by
  intro fuel
  induction fuel with
  | zero =>
      intro start h1 h2
      have : start = k := by omega
      simpa [probeLoop] using this
  | succ n ih =>
      intro start h1 h2
      by_cases hs : start = k
      · subst hs
        simp [probeLoop, hfree]
      · have hlt : start < k := lt_of_le_of_ne h1 hs
        have hm := hmem _ hlt
        simp only [probeLoop, if_pos hm]
        exact ih (start + 1) hlt (by omega)

/-- C7 (confirmed): collision resolution probes `base+ext`, `base_1+ext`,
`base_2+ext`, … in order and returns the first candidate not present in the
directory; for a directory containing `photo.jpg` and `photo_1.jpg`,
candidate base `photo` resolves to `photo_2.jpg`. -/
theorem C7_collision_resolution :
    (∀ (dir : List String) (base ext : String) (k : Nat),
        (∀ i, i < k → candidateName base ext i ∈ dir) →
        candidateName base ext k ∉ dir →
        k ≤ dir.length →
        resolveCollision dir base ext = candidateName base ext k)
    ∧ resolveCollision ["photo.jpg", "photo_1.jpg"] "photo" ".jpg"
        = "photo_2.jpg" := by
  constructor
  · intro dir base ext k hmem hfree hk
    unfold resolveCollision
    rw [probeLoop_eq dir base ext k hmem hfree (dir.length + 1) 0
      (Nat.zero_le k) (by omega)]
  · decide

/-- Witness for C7: the general probing theorem applied to the concrete
`photo.jpg` / `photo_1.jpg` directory, with `k = 2`. -/
theorem C7_witness :
    resolveCollision ["photo.jpg", "photo_1.jpg"] "photo" ".jpg"
      = candidateName "photo" ".jpg" 2 :=
  C7_collision_resolution.1 ["photo.jpg", "photo_1.jpg"] "photo" ".jpg" 2
    (by decide) (by decide) (by decide)

/-! ## C3 — job terminality -/

/-- C3, counterexample: after `completeJob` (status `completed`,
`progress = 100`), a later `updateJobProgress` carrying `processedItems`
recomputes `progress` (here to 50), and a later `startJob` moves the job
back to `running` — the tracker has no terminal-state guard. -/
theorem C3_counterexample :
    (updateJobProgress 6 { processedItems := some 1 }
        (completeJob 5 .completed none
          (startJob 1 (createJob "job1" "p" "proj" .rename 2 0)))).progress
      ≠ (completeJob 5 .completed none
          (startJob 1 (createJob "job1" "p" "proj" .rename 2 0))).progress
    ∧ (startJob 7 (completeJob 5 .completed none
        (startJob 1 (createJob "job1" "p" "proj" .rename 2 0)))).status
      = .running
    ∧ (completeJob 5 .completed none
        (startJob 1 (createJob "job1" "p" "proj" .rename 2 0))).status
      = .completed := by
  refine ⟨by decide, by decide, by decide⟩

/-- C3 (amended): `updateJobProgress` never changes a job's `status` or
`completedAt` — terminal or not — but it does recompute `progress` whenever
`processedItems` is supplied, and `startJob` unconditionally returns any
job, including a completed one, to `running`; the tracker enforces no
terminality. -/
theorem C3_no_terminal_guard :
    (∀ (now : Nat) (u : ProgressUpdate) (j : Job),
        (updateJobProgress now u j).status = j.status
          ∧ (updateJobProgress now u j).completedAt = j.completedAt)
    ∧ (∀ (now p : Nat) (j : Job),
        (updateJobProgress now { processedItems := some p } j).progress =
          jobProgress p j.totalItems)
    ∧ (∀ (now : Nat) (j : Job), (startJob now j).status = .running) :=
  ⟨fun now u j => ⟨updateJobProgress_status now u j,
      updateJobProgress_completedAt now u j⟩,
    fun now p j => updateJobProgress_processed_progress now p j,
    fun _ _ => rfl⟩

/-! ## C4 — progress formula, monotonicity and bounds -/

theorem progRound_mono {p1 p2 : Nat} (t : Nat) (h : p1 ≤ p2) :
    progRound p1 t ≤ progRound p2 t :=
  Nat.div_le_div_right (by omega)

theorem progRound_le_100 {p t : Nat} (ht : 0 < t) (hp : p ≤ t) :
    progRound p t ≤ 100 := by
  have h2t : 0 < 2 * t := by omega
  have h : (200 * p + t) / (2 * t) < 101 := by
    rw [Nat.div_lt_iff_lt_mul h2t]
    omega
  unfold progRound
  omega

theorem progressUpdatesTrace_eq (now : Nat) (ps : List Nat) :
    ∀ j : Job, progressUpdatesTrace now j ps =
      ps.map fun p => jobProgress p j.totalItems := by
  induction ps with
  | nil => intro j; rfl
  | cons p ps ih =>
      intro j
      have ht := updateJobProgress_totalItems now
        { processedItems := some p } j
      simp only [progressUpdatesTrace, List.map_cons]
      rw [ih, updateJobProgress_processed_progress, ht]

/-- C4, counterexample: the claim asserts `progress` is clamped to a defined
value when `totalItems = 0` and always lies in `[0, 100]`; on the code a
single non-decreasing update with `processedItems = 3` against
`totalItems = 2` yields `progress = 150`, and with `totalItems = 0` the
progress becomes `NaN` — neither clamped nor in range. -/
theorem C4_counterexample :
    (updateJobProgress 2 { processedItems := some 3 }
        (startJob 1 (createJob "job1" "p" "proj" .scan 2 0))).progress
      = JsNum.val 150
    ∧ (updateJobProgress 2 { processedItems := some 0 }
        (startJob 1 (createJob "job1" "p" "proj" .scan 0 0))).progress
      = JsNum.nan := by
  refine ⟨by decide, by decide⟩

/-- C4 (amended): provided `totalItems > 0`, every `updateJobProgress` call
sets `progress = round(100 * processedItems / totalItems)`; along a
non-decreasing sequence of `processedItems` the progress values are
non-decreasing, and they lie in `[0, 100]` provided each `processedItems`
is at most `totalItems`.  When `totalItems = 0` the progress is not clamped:
it becomes `NaN` (for `processedItems = 0`) or `Infinity` (otherwise). -/
theorem C4_progress_formula (now now0 : Nat) (j j0 : Job) (ps : List Nat)
    (p0 : Nat) (ht : 0 < j.totalItems) (hch : ps.Chain' (· ≤ ·))
    (hle : ∀ p ∈ ps, p ≤ j.totalItems) (h0 : j0.totalItems = 0) :
    progressUpdatesTrace now j ps =
      ps.map (fun p => JsNum.val (progRound p j.totalItems))
    ∧ (ps.map fun p => progRound p j.totalItems).Chain' (· ≤ ·)
    ∧ (∀ p ∈ ps, progRound p j.totalItems ≤ 100)
    ∧ (updateJobProgress now0 { processedItems := some p0 } j0).progress
        = (if p0 = 0 then JsNum.nan else JsNum.inf) := by
  refine ⟨?_, ?_, ?_, ?_⟩
  · rw [progressUpdatesTrace_eq]
    refine List.map_congr_left fun p _ => ?_
    simp [jobProgress, Nat.pos_iff_ne_zero.mp ht]
  · exact List.chain'_map_of_chain' _ (fun a b h => progRound_mono _ h) hch
  · exact fun p hp => progRound_le_100 ht (hle p hp)
  · rw [updateJobProgress_processed_progress, h0]
    simp [jobProgress]

/-- Witness for C4: totals `4`, updates `[0, 2, 4]`, plus a `totalItems = 0`
job. -/
theorem C4_witness :
    0 < (startJob 1 (createJob "job2" "p" "proj" .scan 4 0)).totalItems
    ∧ ([0, 2, 4] : List Nat).Chain' (· ≤ ·)
    ∧ (progressUpdatesTrace 0 (startJob 1 (createJob "job2" "p" "proj" .scan 4 0)) [0, 2, 4]
          = [0, 2, 4].map (fun p => JsNum.val
              (progRound p (startJob 1 (createJob "job2" "p" "proj" .scan 4 0)).totalItems))
        ∧ ([0, 2, 4].map fun p =>
            progRound p (startJob 1 (createJob "job2" "p" "proj" .scan 4 0)).totalItems).Chain' (· ≤ ·)
        ∧ (∀ p ∈ ([0, 2, 4] : List Nat),
            progRound p (startJob 1 (createJob "job2" "p" "proj" .scan 4 0)).totalItems ≤ 100)
        ∧ (updateJobProgress 9 { processedItems := some 0 }
              (createJob "job3" "p" "proj" .scan 0 0)).progress
            = (if 0 = 0 then JsNum.nan else JsNum.inf)) :=
  ⟨by decide, by simp [List.chain'_cons],
    C4_progress_formula 0 9 (startJob 1 (createJob "job2" "p" "proj" .scan 4 0))
      (createJob "job3" "p" "proj" .scan 0 0) [0, 2, 4] 0
      (by decide) (by simp [List.chain'_cons]) (by decide) (by decide)⟩

/-! ## C2 / C8 — batch terminal-status policy and cancellation -/

/-- Counts and results of a batch item loop, for any per-item step whose
effect on the route-local counters is success/failure bookkeeping plus one
appended result.  The job component of the state is unconstrained, so the
lemma also covers loops with an externally injected cancellation. -/
theorem batchFold_spec {γ : Type} (step : BatchState → Nat × γ → BatchState)
    (isOkF : γ → Bool) (idF : γ → String)
    (hstep : ∀ (s : BatchState) (i : Nat) (o : γ),
      (step s (i, o)).errorCount = s.errorCount + (if isOkF o then 0 else 1)
      ∧ (step s (i, o)).successCount =
          s.successCount + (if isOkF o then 1 else 0)
      ∧ (step s (i, o)).results = s.results ++ [(idF o, isOkF o)]) :
    ∀ (items : List γ) (i0 : Nat) (s : BatchState),
      ((items.enumFrom i0).foldl step s).errorCount
          = s.errorCount + items.countP (fun o => !(isOkF o))
      ∧ ((items.enumFrom i0).foldl step s).successCount
          = s.successCount + items.countP (fun o => isOkF o)
      ∧ ((items.enumFrom i0).foldl step s).results
          = s.results ++ items.map (fun o => (idF o, isOkF o)) := by
  intro items
  induction items with
  | nil => intro i0 s; simp
  | cons o rest ih =>
      intro i0 s
      rw [List.enumFrom_cons]
      simp only [List.foldl_cons]
      obtain ⟨he, hs, hr⟩ := hstep s i0 o
      obtain ⟨ihe, ihs, ihr⟩ := ih (i0 + 1) (step s (i0, o))
      refine ⟨?_, ?_, ?_⟩
      · rw [ihe, he, List.countP_cons]
        cases hok : isOkF o <;> simp <;> omega
      · rw [ihs, hs, List.countP_cons]
        cases hok : isOkF o <;> simp <;> omega
      · rw [ihr, hr, List.map_cons]
        simp

theorem renameBatchStep_spec (now total : Nat) (cancelAt : Option Nat)
    (s : BatchState) (i : Nat) (o : RenameItemOutcome) :
    (renameBatchItem now total
        (if cancelAt = some i then { s with job := cancelJob now s.job }
          else s) (i, o)).errorCount
        = s.errorCount + (if o.isOk then 0 else 1)
    ∧ (renameBatchItem now total
        (if cancelAt = some i then { s with job := cancelJob now s.job }
          else s) (i, o)).successCount
        = s.successCount + (if o.isOk then 1 else 0)
    ∧ (renameBatchItem now total
        (if cancelAt = some i then { s with job := cancelJob now s.job }
          else s) (i, o)).results = s.results ++ [(o.imageId, o.isOk)] := by
  have hcancel :
      (if cancelAt = some i then { s with job := cancelJob now s.job }
        else s).errorCount = s.errorCount
      ∧ (if cancelAt = some i then { s with job := cancelJob now s.job }
          else s).successCount = s.successCount
      ∧ (if cancelAt = some i then { s with job := cancelJob now s.job }
          else s).results = s.results := by
    split <;> exact ⟨rfl, rfl, rfl⟩
  obtain ⟨h1, h2, h3⟩ := hcancel
  cases o <;>
    simp [renameBatchItem, RenameItemOutcome.isOk, RenameItemOutcome.imageId,
      h1, h2, h3]

theorem analyzeBatchStep_spec (now total : Nat) (cancelAt : Option Nat)
    (s : BatchState) (i : Nat) (o : AnalyzeItemOutcome) :
    (analyzeBatchItem now total
        (if cancelAt = some i then { s with job := cancelJob now s.job }
          else s) (i, o)).errorCount
        = s.errorCount + (if o.isOk then 0 else 1)
    ∧ (analyzeBatchItem now total
        (if cancelAt = some i then { s with job := cancelJob now s.job }
          else s) (i, o)).successCount
        = s.successCount + (if o.isOk then 1 else 0)
    ∧ (analyzeBatchItem now total
        (if cancelAt = some i then { s with job := cancelJob now s.job }
          else s) (i, o)).results = s.results ++ [(o.imageId, o.isOk)] := by
  have hcancel :
      (if cancelAt = some i then { s with job := cancelJob now s.job }
        else s).errorCount = s.errorCount
      ∧ (if cancelAt = some i then { s with job := cancelJob now s.job }
          else s).successCount = s.successCount
      ∧ (if cancelAt = some i then { s with job := cancelJob now s.job }
          else s).results = s.results := by
    split <;> exact ⟨rfl, rfl, rfl⟩
  obtain ⟨h1, h2, h3⟩ := hcancel
  cases o <;>
    simp [analyzeBatchItem, AnalyzeItemOutcome.isOk,
      AnalyzeItemOutcome.imageId, h1, h2, h3]

theorem cleanupItem_spec (now total : Nat) (s : BatchState) (i : Nat)
    (o : String × Bool) :
    (cleanupItem now total s (i, o)).errorCount
        = s.errorCount + (if o.2 then 0 else 1)
    ∧ (cleanupItem now total s (i, o)).successCount
        = s.successCount + (if o.2 then 1 else 0)
    ∧ (cleanupItem now total s (i, o)).results = s.results ++ [(o.1, o.2)] := by
  obtain ⟨nm, ok⟩ := o
  cases ok <;> simp [cleanupItem]

/-- C2, counterexample: a cleanup-duplicates run with one success and one
failure terminates `failed` although `errorCount (1) ≠ totalItems (2)` and
one item succeeded — the cleanup route fails on *any* item failure. -/
theorem C2_counterexample :
    (runCleanup "job1" "p" "proj" 0 [("a", true), ("b", false)]).job.status
      = .failed
    ∧ (runCleanup "job1" "p" "proj" 0
        [("a", true), ("b", false)]).job.errorCount = 1
    ∧ (runCleanup "job1" "p" "proj" 0
        [("a", true), ("b", false)]).job.totalItems = 2
    ∧ (runCleanup "job1" "p" "proj" 0
        [("a", true), ("b", false)]).job.successCount = 1 := by
  refine ⟨by decide, by decide, by decide, by decide⟩

/-- C2 (amended): the analyze-batch and rename-batch pipelines terminate
`failed` exactly when every item failed (`errorCount = totalItems`); the
cleanup-duplicates pipeline terminates `failed` exactly when at least one
item failed; and the scan pipeline's normal path always terminates
`completed`, whatever the per-file outcomes. -/
theorem C2_terminal_status_policy (jobId projectId projectName : String)
    (now : Nat) :
    (∀ items : List AnalyzeItemOutcome,
        ((runAnalyzeBatch jobId projectId projectName now items
              none).job.status = .failed
          ↔ ∀ o ∈ items, o.isOk = false))
    ∧ (∀ items : List RenameItemOutcome,
        ((runRenameBatch jobId projectId projectName now items
              none).job.status = .failed
          ↔ ∀ o ∈ items, o.isOk = false))
    ∧ (∀ items : List (String × Bool),
        ((runCleanup jobId projectId projectName now items).job.status
            = .failed
          ↔ ∃ o ∈ items, o.2 = false))
    ∧ (∀ (md5 : List Nat → String) (folder : String)
        (store0 : List (String × ImageData)) (files : List FsFile),
        (scanPipeline md5 jobId projectId projectName folder now store0 files
            none).job.status = .completed) := by
  refine ⟨?_, ?_, ?_, ?_⟩
  · intro items
    have h := (batchFold_spec
      (fun (s : BatchState) (io : Nat × AnalyzeItemOutcome) =>
        analyzeBatchItem now items.length
          (if (none : Option Nat) = some io.1 then
            { s with job := cancelJob now s.job }
          else s) io)
      (fun o => o.isOk) (fun o => o.imageId)
      (fun s i o => analyzeBatchStep_spec now items.length none s i o)
      items 0
      { job := startJob now
          (createJob jobId projectId projectName .analyze items.length now),
        successCount := 0, errorCount := 0, results := [] }).1
    dsimp only at h
    rw [Nat.zero_add] at h
    simp only [runAnalyzeBatch]
    rw [completeJob_status, h]
    by_cases hc : items.countP (fun o => !o.isOk) = items.length
    · rw [if_pos hc]
      refine iff_of_true rfl ?_
      intro o ho
      have := List.countP_eq_length.mp hc o ho
      simpa using this
    · rw [if_neg hc]
      refine iff_of_false (by decide) fun hall => hc ?_
      exact List.countP_eq_length.mpr fun o ho => by simp [hall o ho]
  · intro items
    have h := (batchFold_spec
      (fun (s : BatchState) (io : Nat × RenameItemOutcome) =>
        renameBatchItem now items.length
          (if (none : Option Nat) = some io.1 then
            { s with job := cancelJob now s.job }
          else s) io)
      (fun o => o.isOk) (fun o => o.imageId)
      (fun s i o => renameBatchStep_spec now items.length none s i o)
      items 0
      { job := startJob now
          (createJob jobId projectId projectName .rename items.length now),
        successCount := 0, errorCount := 0, results := [] }).1
    dsimp only at h
    rw [Nat.zero_add] at h
    simp only [runRenameBatch]
    rw [completeJob_status, h]
    by_cases hc : items.countP (fun o => !o.isOk) = items.length
    · rw [if_pos hc]
      refine iff_of_true rfl ?_
      intro o ho
      have := List.countP_eq_length.mp hc o ho
      simpa using this
    · rw [if_neg hc]
      refine iff_of_false (by decide) fun hall => hc ?_
      exact List.countP_eq_length.mpr fun o ho => by simp [hall o ho]
  · intro items
    have h := (batchFold_spec
      (fun (s : BatchState) (io : Nat × (String × Bool)) =>
        cleanupItem now items.length s io)
      (fun o => o.2) (fun o => o.1)
      (fun s i o => cleanupItem_spec now items.length s i o)
      items 0
      { job := startJob now
          (createJob jobId projectId projectName .cleanup items.length now),
        successCount := 0, errorCount := 0, results := [] }).1
    dsimp only at h
    rw [Nat.zero_add] at h
    simp only [runCleanup]
    rw [completeJob_status, h]
    by_cases hc : 0 < items.countP (fun o => !o.2)
    · rw [if_pos hc]
      refine iff_of_true rfl ?_
      obtain ⟨o, ho, hpo⟩ := List.countP_pos_iff.mp hc
      exact ⟨o, ho, by simpa using hpo⟩
    · rw [if_neg hc]
      refine iff_of_false (by decide) fun hex => hc ?_
      obtain ⟨o, ho, hpo⟩ := hex
      exact List.countP_pos_iff.mpr ⟨o, ho, by simp [hpo]⟩
  · intro md5 folder store0 files
    simp [scanPipeline, completeJob_status, TerminalStatus.toStatus]

/-- C8, counterexample: a rename-batch run of three items externally
cancelled before item 1 still attempts and succeeds all three items and
terminates `completed` — the loop never observes the cancellation. -/
theorem C8_counterexample :
    (runRenameBatch "job1" "p" "proj" 0
        [.ok "a" "x", .ok "b" "y", .ok "c" "z"] (some 1)).results.length = 3
    ∧ (runRenameBatch "job1" "p" "proj" 0
        [.ok "a" "x", .ok "b" "y", .ok "c" "z"] (some 1)).successCount = 3
    ∧ (runRenameBatch "job1" "p" "proj" 0
        [.ok "a" "x", .ok "b" "y", .ok "c" "z"] (some 1)).job.status
      = .completed := by
  refine ⟨by decide, by decide, by decide⟩

/-- C8 (amended): neither batch loop checks the job's status: whether and
wherever an external cancellation lands, every item is still attempted —
the results are the full per-item outcome list, of length `totalItems` —
and the final `completeJob` leaves the job `completed`/`failed`, never
`cancelled`. -/
theorem C8_no_cancellation_check (jobId projectId projectName : String)
    (now : Nat) :
    (∀ (items : List RenameItemOutcome) (cancelAt : Option Nat),
        (runRenameBatch jobId projectId projectName now items
              cancelAt).results = items.map (fun o => (o.imageId, o.isOk))
          ∧ (runRenameBatch jobId projectId projectName now items
              cancelAt).results.length = items.length
          ∧ (runRenameBatch jobId projectId projectName now items
              cancelAt).job.status ≠ .cancelled)
    ∧ (∀ (items : List AnalyzeItemOutcome) (cancelAt : Option Nat),
        (runAnalyzeBatch jobId projectId projectName now items
              cancelAt).results = items.map (fun o => (o.imageId, o.isOk))
          ∧ (runAnalyzeBatch jobId projectId projectName now items
              cancelAt).results.length = items.length
          ∧ (runAnalyzeBatch jobId projectId projectName now items
              cancelAt).job.status ≠ .cancelled) := by
  constructor
  · intro items cancelAt
    have h := (batchFold_spec
      (fun (s : BatchState) (io : Nat × RenameItemOutcome) =>
        renameBatchItem now items.length
          (if cancelAt = some io.1 then { s with job := cancelJob now s.job }
          else s) io)
      (fun o => o.isOk) (fun o => o.imageId)
      (fun s i o => renameBatchStep_spec now items.length cancelAt s i o)
      items 0
      { job := startJob now
          (createJob jobId projectId projectName .rename items.length now),
        successCount := 0, errorCount := 0, results := [] }).2.2
    refine ⟨?_, ?_, ?_⟩
    · simp only [runRenameBatch]
      rw [h]
      simp
    · simp only [runRenameBatch]
      rw [h]
      simp
    · simp only [runRenameBatch]
      rw [completeJob_status]
      split <;> decide
  · intro items cancelAt
    have h := (batchFold_spec
      (fun (s : BatchState) (io : Nat × AnalyzeItemOutcome) =>
        analyzeBatchItem now items.length
          (if cancelAt = some io.1 then { s with job := cancelJob now s.job }
          else s) io)
      (fun o => o.isOk) (fun o => o.imageId)
      (fun s i o => analyzeBatchStep_spec now items.length cancelAt s i o)
      items 0
      { job := startJob now
          (createJob jobId projectId projectName .analyze items.length now),
        successCount := 0, errorCount := 0, results := [] }).2.2
    refine ⟨?_, ?_, ?_⟩
    · simp only [runAnalyzeBatch]
      rw [h]
      simp
    · simp only [runAnalyzeBatch]
      rw [h]
      simp
    · simp only [runAnalyzeBatch]
      rw [completeJob_status]
      split <;> decide

/-! ## C9 — image id truncation collisions -/

/-- C9 (confirmed): `generateImageId` is the first 8 characters of the hash,
an underscore, and the sanitized original name truncated to 50 characters;
two files agreeing on those prefixes receive the same id, and `saveImages`
then keeps only the later record for both. -/
theorem C9_image_id_collision (pid : String) (img1 img2 : ImageData)
    (hh : img1.hash.data.take 8 = img2.hash.data.take 8)
    (hn : (img1.originalName.data.map sanitizeIdChar).take 50 =
      (img2.originalName.data.map sanitizeIdChar).take 50) :
    generateImageId img1.hash img1.originalName =
      generateImageId img2.hash img2.originalName
    ∧ saveImagesMem pid [img1, img2] [] =
        [(generateImageId img2.hash img2.originalName,
          { img2 with id := generateImageId img2.hash img2.originalName,
                      projectId := pid })] := by
  have hid : generateImageId img1.hash img1.originalName =
      generateImageId img2.hash img2.originalName := by
    unfold generateImageId
    rw [hh, hn]
  refine ⟨hid, ?_⟩
  simp only [saveImagesMem, List.foldl_cons, List.foldl_nil, hid]
  simp [storeSet]

/-- Witness for C9: hashes differing only after the 8th character and names
differing only in a character the sanitizer folds to `_`. -/
theorem C9_witness :
    ("aaaaaaaa11" : String).data.take 8 = ("aaaaaaaa22" : String).data.take 8
    ∧ (generateImageId "aaaaaaaa11" "n 1.jpg"
          = generateImageId "aaaaaaaa22" "n?1.jpg"
        ∧ saveImagesMem "p"
            [{ hash := "aaaaaaaa11", originalName := "n 1.jpg" },
              { hash := "aaaaaaaa22", originalName := "n?1.jpg" }] []
          = [(generateImageId "aaaaaaaa22" "n?1.jpg",
              { ({ hash := "aaaaaaaa22", originalName := "n?1.jpg" } :
                  ImageData) with
                  id := generateImageId "aaaaaaaa22" "n?1.jpg",
                  projectId := "p" })]) :=
  ⟨by decide,
    C9_image_id_collision "p"
      { hash := "aaaaaaaa11", originalName := "n 1.jpg" }
      { hash := "aaaaaaaa22", originalName := "n?1.jpg" }
      (by decide) (by decide)⟩

/-! ## C10 — a failed scan is not atomic -/

/-- C10 (confirmed): the scan clears the project's records before the file
loop and bulk-saves only after it; an exception thrown anywhere between the
clear and the save (modelled by `crashAfter = some k`, for any `k`)
completes the job as `failed` and leaves the project with zero stored image
records — the pre-scan records are not restored. -/
theorem C10_failed_scan_leaves_no_records (md5 : List Nat → String)
    (jobId projectId projectName folder : String) (now : Nat)
    (store0 : List (String × ImageData)) (files : List FsFile) (k : Nat) :
    ((scanPipeline md5 jobId projectId projectName folder now store0 files
        (some k)).store.filter fun e => e.2.projectId == projectId) = []
    ∧ (scanPipeline md5 jobId projectId projectName folder now store0 files
        (some k)).job.status = .failed
    ∧ (scanPipeline md5 jobId projectId projectName folder now store0 files
        (some k)).ok = false := by
  refine ⟨?_, ?_, rfl⟩
  · have hst : (scanPipeline md5 jobId projectId projectName folder now
        store0 files (some k)).store
        = clearProjectImagesMem projectId store0 := rfl
    rw [hst]
    unfold clearProjectImagesMem
    rw [List.filter_filter]
    simp
  · simp [scanPipeline, completeJob_status, TerminalStatus.toStatus]

/-! ## Scan-pipeline structure lemmas (shared by C5 and C6) -/

theorem mergeExisting_hash (l : List ImageData) (fp fn : String)
    (fresh : ImageData) : (mergeExisting l fp fn fresh).hash = fresh.hash := by
  unfold mergeExisting
  split <;> rfl

theorem mergeExisting_originalName (l : List ImageData) (fp fn : String)
    (fresh : ImageData) :
    (mergeExisting l fp fn fresh).originalName = fresh.originalName := by
  unfold mergeExisting
  split <;> rfl

theorem mergeExisting_path (l : List ImageData) (fp fn : String)
    (fresh : ImageData) : (mergeExisting l fp fn fresh).path = fresh.path := by
  unfold mergeExisting
  split <;> rfl

theorem markStep_hash (p : String × List String) (img : ImageData) :
    (markStep p img).hash = img.hash := by
  unfold markStep
  split <;> rfl

theorem markStep_originalName (p : String × List String) (img : ImageData) :
    (markStep p img).originalName = img.originalName := by
  unfold markStep
  split <;> rfl

theorem markStep_path (p : String × List String) (img : ImageData) :
    (markStep p img).path = img.path := by
  unfold markStep
  split <;> rfl

theorem markStep_suggestedName (p : String × List String) (img : ImageData) :
    (markStep p img).suggestedName = img.suggestedName := by
  unfold markStep
  split <;> rfl

theorem markStep_renamed (p : String × List String) (img : ImageData) :
    (markStep p img).renamed = img.renamed := by
  unfold markStep
  split <;> rfl

theorem applyMark_hash (buckets : List (String × List String)) :
    ∀ img : ImageData, (applyMark buckets img).hash = img.hash := by
  induction buckets with
  | nil => intro img; rfl
  | cons b bs ih =>
      intro img
      show (applyMark bs (markStep b img)).hash = img.hash
      rw [ih, markStep_hash]

theorem applyMark_originalName (buckets : List (String × List String)) :
    ∀ img : ImageData,
      (applyMark buckets img).originalName = img.originalName := by
  induction buckets with
  | nil => intro img; rfl
  | cons b bs ih =>
      intro img
      show (applyMark bs (markStep b img)).originalName = img.originalName
      rw [ih, markStep_originalName]

theorem applyMark_path (buckets : List (String × List String)) :
    ∀ img : ImageData, (applyMark buckets img).path = img.path := by
  induction buckets with
  | nil => intro img; rfl
  | cons b bs ih =>
      intro img
      show (applyMark bs (markStep b img)).path = img.path
      rw [ih, markStep_path]

theorem applyMark_suggestedName (buckets : List (String × List String)) :
    ∀ img : ImageData,
      (applyMark buckets img).suggestedName = img.suggestedName := by
  induction buckets with
  | nil => intro img; rfl
  | cons b bs ih =>
      intro img
      show (applyMark bs (markStep b img)).suggestedName = img.suggestedName
      rw [ih, markStep_suggestedName]

theorem applyMark_renamed (buckets : List (String × List String)) :
    ∀ img : ImageData, (applyMark buckets img).renamed = img.renamed := by
  induction buckets with
  | nil => intro img; rfl
  | cons b bs ih =>
      intro img
      show (applyMark bs (markStep b img)).renamed = img.renamed
      rw [ih, markStep_renamed]

/-- The image list collected by the scan loop is the per-file records in
file order (the job bookkeeping does not feed back into it). -/
theorem scanLoop_images (md5 : List Nat → String) (projectId folder : String)
    (now : Nat) (existing : List ImageData) :
    ∀ (files : List FsFile) (s : ScanLoopState),
      (files.foldl (scanStep md5 projectId folder now existing) s).images
        = s.images ++ files.map (scanRecord md5 projectId folder now existing)
    := by
  intro files
  induction files with
  | nil => intro s; simp
  | cons f rest ih =>
      intro s
      rw [List.foldl_cons, ih]
      simp [scanStep, scanRecord]

theorem markDuplicates_eq_map (buckets : List (String × List String)) :
    ∀ images : List ImageData,
      markDuplicates buckets images = images.map (applyMark buckets) := by
  induction buckets with
  | nil =>
      intro images
      show images = List.map (applyMark []) images
      have : applyMark ([] : List (String × List String)) = id := rfl
      rw [this, List.map_id]
  | cons b bs ih =>
      intro images
      show List.foldl _ _ (b :: bs) = _
      rw [List.foldl_cons]
      have h1 : List.foldl (fun imgs p => imgs.map (markStep p))
          (images.map (markStep b)) bs
          = markDuplicates bs (images.map (markStep b)) := rfl
      rw [h1, ih, List.map_map]
      rfl

theorem saveImagesMem_append (pid : String) :
    ∀ (imgs : List ImageData) (store : List (String × ImageData)),
      (∀ img ∈ imgs, ∀ e ∈ store,
        e.1 ≠ generateImageId img.hash img.originalName) →
      (imgs.map fun img => generateImageId img.hash img.originalName).Nodup →
      saveImagesMem pid imgs store = store ++ imgs.map (stampRecord pid) := by
  intro imgs
  induction imgs with
  | nil => intro store _ _; simp [saveImagesMem]
  | cons img rest ih =>
      intro store hdisj hnodup
      have hany : store.any
          (fun e => e.1 == generateImageId img.hash img.originalName)
            = false := by
        rw [List.any_eq_false]
        intro e he
        simp [hdisj img (by simp) e he]
      have hstep : saveImagesMem pid (img :: rest) store
          = saveImagesMem pid rest (store ++ [stampRecord pid img]) := by
        show List.foldl _ _ (img :: rest) = _
        rw [List.foldl_cons]
        have : storeSet store (generateImageId img.hash img.originalName)
            { img with id := generateImageId img.hash img.originalName,
                        projectId := pid }
            = store ++ [stampRecord pid img] := by
          unfold storeSet
          rw [hany]
          rfl
        rw [show (List.foldl (fun st i =>
            storeSet st (generateImageId i.hash i.originalName)
              { i with id := generateImageId i.hash i.originalName,
                        projectId := pid }) (storeSet store
                (generateImageId img.hash img.originalName)
                { img with id := generateImageId img.hash img.originalName,
                            projectId := pid }) rest)
            = saveImagesMem pid rest (storeSet store
                (generateImageId img.hash img.originalName)
                { img with id := generateImageId img.hash img.originalName,
                            projectId := pid }) from rfl, this]
      rw [hstep, ih]
      · simp
      · intro i hi e he
        rcases List.mem_append.mp he with hl | hr
        · exact hdisj i (List.mem_cons_of_mem _ hi) e hl
        · have he2 : e = stampRecord pid img := by simpa using hr
          subst he2
          have : generateImageId img.hash img.originalName
              ∉ rest.map fun i => generateImageId i.hash i.originalName :=
            (List.nodup_cons.mp hnodup).1
          intro hcontra
          exact this (by
            rw [show (stampRecord pid img).1
                = generateImageId img.hash img.originalName from rfl] at hcontra
            rw [hcontra]
            exact List.mem_map_of_mem _ hi)
      · exact (List.nodup_cons.mp hnodup).2

theorem scanRecord_gid (md5 : List Nat → String) (projectId folder : String)
    (now : Nat) (existing : List ImageData)
    (buckets : List (String × List String)) (f : FsFile) :
    generateImageId
        (applyMark buckets (scanRecord md5 projectId folder now existing
          f)).hash
        (applyMark buckets (scanRecord md5 projectId folder now existing
          f)).originalName
      = generateImageId (md5 f.bytes) f.name := by
  rw [applyMark_hash, applyMark_originalName]
  unfold scanRecord
  rw [mergeExisting_hash, mergeExisting_originalName]
  rfl

/-- The store a successful scan leaves behind: the other projects' entries
unchanged, followed by one stamped entry per scanned file, in file order. -/
theorem scanPipeline_store_shape (md5 : List Nat → String)
    (jobId projectId projectName folder : String) (now : Nat)
    (store0 : List (String × ImageData)) (files : List FsFile)
    (hdisj : ∀ f ∈ files, ∀ e ∈ clearProjectImagesMem projectId store0,
      e.1 ≠ generateImageId (md5 f.bytes) f.name)
    (hnodup : (scanIds md5 files).Nodup) :
    (scanPipeline md5 jobId projectId projectName folder now store0 files
        none).store
      = clearProjectImagesMem projectId store0
        ++ files.map (fun f => stampRecord projectId
            (applyMark (buildBuckets md5 files)
              (scanRecord md5 projectId folder now
                ((store0.filter fun e => e.2.projectId == projectId).map
                  fun e => e.2) f))) := by
  have hshow : (scanPipeline md5 jobId projectId projectName folder now
        store0 files none).store
      = saveImagesMem projectId
          (markDuplicates (buildBuckets md5 files)
            (files.foldl
              (scanStep md5 projectId folder now
                ((store0.filter fun e => e.2.projectId == projectId).map
                  fun e => e.2))
              { images := [],
                job := startJob now (createJob jobId projectId projectName
                  .scan files.length now),
                processedCount := 0 }).images)
          (clearProjectImagesMem projectId store0) := rfl
  rw [hshow, scanLoop_images, markDuplicates_eq_map, List.nil_append,
    List.map_map]
  rw [saveImagesMem_append]
  · rw [List.map_map]
    rfl
  · intro img himg e he
    obtain ⟨f, hf, rfl⟩ := List.mem_map.mp himg
    have := hdisj f hf e he
    rw [Function.comp_apply, scanRecord_gid]
    exact this
  · have hm : ((files.map
        ((applyMark (buildBuckets md5 files)) ∘
          (scanRecord md5 projectId folder now
            ((store0.filter fun e => e.2.projectId == projectId).map
              fun e => e.2)))).map
        fun img => generateImageId img.hash img.originalName)
        = scanIds md5 files := by
      rw [List.map_map]
      refine List.map_congr_left fun f _ => ?_
      rw [Function.comp_apply, Function.comp_apply, scanRecord_gid]
    rw [hm]
    exact hnodup

theorem scanPipeline_imageCount (md5 : List Nat → String)
    (jobId projectId projectName folder : String) (now : Nat)
    (store0 : List (String × ImageData)) (files : List FsFile) :
    (scanPipeline md5 jobId projectId projectName folder now store0 files
        none).imageCount = files.length := by
  have hshow : (scanPipeline md5 jobId projectId projectName folder now
        store0 files none).imageCount
      = (markDuplicates (buildBuckets md5 files)
          (files.foldl
            (scanStep md5 projectId folder now
              ((store0.filter fun e => e.2.projectId == projectId).map
                fun e => e.2))
            { images := [],
              job := startJob now (createJob jobId projectId projectName
                .scan files.length now),
              processedCount := 0 }).images).length := rfl
  rw [hshow, markDuplicates_eq_map, scanLoop_images]
  simp

theorem existingForHash_nil (h : String) : existingForHash [] h = [] := by
  unfold existingForHash
  split <;> rfl

theorem scanRecord_nil (md5 : List Nat → String) (projectId folder : String)
    (now : Nat) (f : FsFile) :
    scanRecord md5 projectId folder now [] f
      = scanFileFresh md5 projectId folder now f := by
  simp only [scanRecord]
  rw [existingForHash_nil]
  rfl

/-! ## C6 — duplicate grouping -/

/-- C6 (confirmed): scanning a fresh project containing files `A`, `B`
(identical bytes) and `C` (hash differing from `A`'s) marks `A` and `B` as
duplicates with `duplicateOf` listing exactly the sibling's original name,
and leaves `C` unmarked. -/
theorem C6_duplicate_grouping (md5 : List Nat → String)
    (jobId projectId projectName folder : String) (now : Nat)
    (A B C : FsFile)
    (hbytes : A.bytes = B.bytes)
    (hhash : md5 A.bytes ≠ md5 C.bytes)
    (hABname : A.name ≠ B.name)
    (hidAB : generateImageId (md5 A.bytes) A.name
      ≠ generateImageId (md5 B.bytes) B.name)
    (hidAC : generateImageId (md5 A.bytes) A.name
      ≠ generateImageId (md5 C.bytes) C.name)
    (hidBC : generateImageId (md5 B.bytes) B.name
      ≠ generateImageId (md5 C.bytes) C.name) :
    ((storeGet (scanPipeline md5 jobId projectId projectName folder now []
          [A, B, C] none).store
        (generateImageId (md5 A.bytes) A.name)).map
      fun r => (r.isDuplicate, r.duplicateOf)) = some (true, some [B.name])
    ∧ ((storeGet (scanPipeline md5 jobId projectId projectName folder now []
          [A, B, C] none).store
        (generateImageId (md5 B.bytes) B.name)).map
      fun r => (r.isDuplicate, r.duplicateOf)) = some (true, some [A.name])
    ∧ ((storeGet (scanPipeline md5 jobId projectId projectName folder now []
          [A, B, C] none).store
        (generateImageId (md5 C.bytes) C.name)).map
      fun r => (r.isDuplicate, r.duplicateOf)) = some (false, none) := by
  have hmdB : md5 B.bytes = md5 A.bytes := by rw [hbytes]
  have hhash' : md5 C.bytes ≠ md5 A.bytes := Ne.symm hhash
  have hBAname : B.name ≠ A.name := Ne.symm hABname
  have hidAB2 : generateImageId (md5 A.bytes) A.name
      ≠ generateImageId (md5 A.bytes) B.name := by simpa [hmdB] using hidAB
  have hidBC2 : generateImageId (md5 A.bytes) B.name
      ≠ generateImageId (md5 C.bytes) C.name := by simpa [hmdB] using hidBC
  have hidAB2' := Ne.symm hidAB2
  have hidAC' := Ne.symm hidAC
  have hidBC2' := Ne.symm hidBC2
  have hnodup : (scanIds md5 [A, B, C]).Nodup := by
    simp [scanIds, List.nodup_cons, hidAB, hidAC, hidBC]
  have hdisj : ∀ f ∈ [A, B, C],
      ∀ e ∈ clearProjectImagesMem projectId
        ([] : List (String × ImageData)),
      e.1 ≠ generateImageId (md5 f.bytes) f.name := by
    intro f _ e he
    simp [clearProjectImagesMem] at he
  have hstore := scanPipeline_store_shape md5 jobId projectId projectName
    folder now [] [A, B, C] hdisj hnodup
  have hbuckets : buildBuckets md5 [A, B, C]
      = [(md5 A.bytes, [A.name, B.name]), (md5 C.bytes, [C.name])] := by
    simp [buildBuckets, addToBucket, hmdB, hhash]
  rw [hbuckets] at hstore
  simp only [List.filter_nil, List.map_nil, scanRecord_nil,
    clearProjectImagesMem, List.nil_append, List.map_cons] at hstore
  rw [hstore]
  refine ⟨?_, ?_, ?_⟩ <;>
    simp [storeGet, stampRecord, applyMark, markStep, scanFileFresh,
      hmdB, hhash, hhash', hABname, hBAname, hidAB2, hidAC, hidBC2,
      hidAB2', hidAC', hidBC2']

/-- Witness for C6: a fresh scan of three concrete files, the first two
byte-identical, under a concrete content-hash function. -/
theorem C6_witness :
    ((storeGet (scanPipeline
          (fun bs => "h" ++ Nat.repr (bs.foldl (fun a b => a * 100 + b) 0))
          "job1" "p" "proj" "dir" 9 []
          [⟨"a.jpg", [1]⟩, ⟨"b.jpg", [1]⟩, ⟨"c.jpg", [2]⟩] none).store
        (generateImageId
          ((fun bs => "h" ++ Nat.repr (bs.foldl (fun a b => a * 100 + b) 0))
            [1]) "a.jpg")).map
      fun r => (r.isDuplicate, r.duplicateOf)) = some (true, some ["b.jpg"])
    ∧ ((storeGet (scanPipeline
          (fun bs => "h" ++ Nat.repr (bs.foldl (fun a b => a * 100 + b) 0))
          "job1" "p" "proj" "dir" 9 []
          [⟨"a.jpg", [1]⟩, ⟨"b.jpg", [1]⟩, ⟨"c.jpg", [2]⟩] none).store
        (generateImageId
          ((fun bs => "h" ++ Nat.repr (bs.foldl (fun a b => a * 100 + b) 0))
            [1]) "b.jpg")).map
      fun r => (r.isDuplicate, r.duplicateOf)) = some (true, some ["a.jpg"])
    ∧ ((storeGet (scanPipeline
          (fun bs => "h" ++ Nat.repr (bs.foldl (fun a b => a * 100 + b) 0))
          "job1" "p" "proj" "dir" 9 []
          [⟨"a.jpg", [1]⟩, ⟨"b.jpg", [1]⟩, ⟨"c.jpg", [2]⟩] none).store
        (generateImageId
          ((fun bs => "h" ++ Nat.repr (bs.foldl (fun a b => a * 100 + b) 0))
            [2]) "c.jpg")).map
      fun r => (r.isDuplicate, r.duplicateOf)) = some (false, none) :=
  C6_duplicate_grouping
    (fun bs => "h" ++ Nat.repr (bs.foldl (fun a b => a * 100 + b) 0))
    "job1" "p" "proj" "dir" 9 ⟨"a.jpg", [1]⟩ ⟨"b.jpg", [1]⟩ ⟨"c.jpg", [2]⟩
    rfl (by decide) (by decide) (by decide) (by decide) (by decide)

/-! ## C5 — rescan idempotence and merge-forward -/

theorem string_append_cancel_left {a b c : String} (h : a ++ b = a ++ c) :
    b = c := by
  apply String.ext
  have hd : a.data ++ b.data = a.data ++ c.data := by
    rw [← String.data_append, ← String.data_append, h]
  exact List.append_cancel_left hd

theorem option_orElse_none {α : Type} (x : Option α) :
    (x.orElse fun _ => (none : Option α)) = x := by
  cases x <;> rfl

theorem find?_map_unique {α β : Type} (F : α → β) (p : β → Bool) (x : α) :
    ∀ l : List α, x ∈ l → p (F x) = true →
      (∀ y ∈ l, p (F y) = true → F y = F x) →
      (l.map F).find? p = some (F x) := by
  intro l
  induction l with
  | nil => intro h; cases h
  | cons a as ih =>
      intro hx hpx huniq
      rw [List.map_cons]
      by_cases hpa : p (F a) = true
      · rw [List.find?_cons_of_pos _ hpa]
        exact congrArg some (huniq a (List.mem_cons_self a as) hpa)
      · rw [List.find?_cons_of_neg _ hpa]
        have hx' : x ∈ as := by
          rcases List.mem_cons.mp hx with rfl | h
          · exact absurd hpx hpa
          · exact h
        exact ih hx' hpx fun y hy hpy =>
          huniq y (List.mem_cons_of_mem _ hy) hpy

theorem mergeExisting_find_some (l : List ImageData) (fp fn : String)
    (fresh ex : ImageData)
    (hfind : l.find? (fun i => i.path == fp) = some ex) :
    (mergeExisting l fp fn fresh).suggestedName
      = ex.suggestedName.orElse (fun _ => fresh.suggestedName)
    ∧ (mergeExisting l fp fn fresh).renamed = ex.renamed := by
  unfold mergeExisting
  rw [hfind]
  exact ⟨rfl, rfl⟩

/-- A rescan of an unchanged folder against a store holding one record per
file (correct hash and path) merges forward that record's `suggestedName`
and `renamed` flag. -/
theorem scanRecord_rescan (md5 : List Nat → String)
    (projectId folder : String) (now2 : Nat) (files : List FsFile)
    (record1 : FsFile → ImageData) (f : FsFile) (hf : f ∈ files)
    (hnames : files.Pairwise (fun a b => a.name ≠ b.name))
    (hhash1 : ∀ g ∈ files, (record1 g).hash = md5 g.bytes)
    (hpath1 : ∀ g ∈ files, (record1 g).path = folder ++ "/" ++ g.name)
    (hmd5f : md5 f.bytes ≠ "") :
    (scanRecord md5 projectId folder now2 (files.map record1)
        f).suggestedName = (record1 f).suggestedName
    ∧ (scanRecord md5 projectId folder now2 (files.map record1) f).renamed
      = (record1 f).renamed := by
  have hbucket : existingForHash (files.map record1) (md5 f.bytes)
      = (files.filter fun g => (record1 g).hash == md5 f.bytes).map
          record1 := by
    unfold existingForHash
    rw [if_neg hmd5f, List.filter_map]
    rfl
  have hfind : ((files.filter fun g =>
        (record1 g).hash == md5 f.bytes).map record1).find?
        (fun i => i.path == folder ++ "/" ++ f.name)
      = some (record1 f) := by
    refine find?_map_unique record1 _ f _ ?_ ?_ ?_
    · rw [List.mem_filter]
      refine ⟨hf, ?_⟩
      rw [hhash1 f hf]
      exact beq_self_eq_true _
    · rw [hpath1 f hf]
      exact beq_self_eq_true _
    · intro y hy hpy
      have hyf : y ∈ files := (List.mem_filter.mp hy).1
      have hpathy : (record1 y).path = folder ++ "/" ++ f.name :=
        beq_iff_eq.mp hpy
      rw [hpath1 y hyf] at hpathy
      have hname : y.name = f.name := string_append_cancel_left hpathy
      by_cases hyf2 : y = f
      · rw [hyf2]
      · exact absurd hname
          (hnames.forall (fun a b hab => Ne.symm hab) hyf hf hyf2)
  have hsel := mergeExisting_find_some _ (folder ++ "/" ++ f.name) f.name
    (scanFileFresh md5 projectId folder now2 f) (record1 f) hfind
  constructor
  · show (mergeExisting (existingForHash (files.map record1)
        (scanFileFresh md5 projectId folder now2 f).hash)
        (scanFileFresh md5 projectId folder now2 f).path f.name
        (scanFileFresh md5 projectId folder now2 f)).suggestedName = _
    rw [show (scanFileFresh md5 projectId folder now2 f).hash
        = md5 f.bytes from rfl, hbucket]
    rw [show (scanFileFresh md5 projectId folder now2 f).path
        = folder ++ "/" ++ f.name from rfl]
    rw [hsel.1]
    rw [show (scanFileFresh md5 projectId folder now2 f).suggestedName
        = none from rfl]
    exact option_orElse_none _
  · show (mergeExisting (existingForHash (files.map record1)
        (scanFileFresh md5 projectId folder now2 f).hash)
        (scanFileFresh md5 projectId folder now2 f).path f.name
        (scanFileFresh md5 projectId folder now2 f)).renamed = _
    rw [show (scanFileFresh md5 projectId folder now2 f).hash
        = md5 f.bytes from rfl, hbucket]
    rw [show (scanFileFresh md5 projectId folder now2 f).path
        = folder ++ "/" ++ f.name from rfl]
    rw [hsel.2]

theorem scanRecord_hash (md5 : List Nat → String)
    (projectId folder : String) (now : Nat) (existing : List ImageData)
    (f : FsFile) :
    (scanRecord md5 projectId folder now existing f).hash = md5 f.bytes := by
  show (mergeExisting (existingForHash existing
      (scanFileFresh md5 projectId folder now f).hash)
      (scanFileFresh md5 projectId folder now f).path f.name
      (scanFileFresh md5 projectId folder now f)).hash = md5 f.bytes
  rw [mergeExisting_hash]
  rfl

theorem scanRecord_path (md5 : List Nat → String)
    (projectId folder : String) (now : Nat) (existing : List ImageData)
    (f : FsFile) :
    (scanRecord md5 projectId folder now existing f).path
      = folder ++ "/" ++ f.name := by
  show (mergeExisting (existingForHash existing
      (scanFileFresh md5 projectId folder now f).hash)
      (scanFileFresh md5 projectId folder now f).path f.name
      (scanFileFresh md5 projectId folder now f)).path
      = folder ++ "/" ++ f.name
  rw [mergeExisting_path]
  rfl

theorem stampRecord_snd_suggestedName (pid : String) (img : ImageData) :
    (stampRecord pid img).2.suggestedName = img.suggestedName := rfl

theorem stampRecord_snd_renamed (pid : String) (img : ImageData) :
    (stampRecord pid img).2.renamed = img.renamed := rfl

theorem stampRecord_snd_hash (pid : String) (img : ImageData) :
    (stampRecord pid img).2.hash = img.hash := rfl

theorem stampRecord_snd_path (pid : String) (img : ImageData) :
    (stampRecord pid img).2.path = img.path := rfl

/-- C5 (confirmed): scanning the same unchanged folder twice is idempotent:
the second scan reports the same `imageCount`, stores the same id list
(each id the pure function `generateImageId` of content hash and name), and
merges forward every `suggestedName` and `renamed` flag present before the
rescan, because the scan matches each file against the prior record with
the same content hash. -/
theorem C5_rescan_idempotent (md5 : List Nat → String)
    (jobId1 jobId2 projectId projectName folder : String) (now1 now2 : Nat)
    (store0 : List (String × ImageData)) (files : List FsFile)
    (hnames : files.Pairwise (fun a b => a.name ≠ b.name))
    (hmd5 : ∀ f ∈ files, md5 f.bytes ≠ "")
    (hnodup : (scanIds md5 files).Nodup)
    (hkeys : ∀ f ∈ files, ∀ e ∈ clearProjectImagesMem projectId store0,
      e.1 ≠ generateImageId (md5 f.bytes) f.name) :
    (scanPipeline md5 jobId2 projectId projectName folder now2
        (scanPipeline md5 jobId1 projectId projectName folder now1 store0
          files none).store files none).imageCount
      = (scanPipeline md5 jobId1 projectId projectName folder now1 store0
          files none).imageCount
    ∧ ((scanPipeline md5 jobId2 projectId projectName folder now2
          (scanPipeline md5 jobId1 projectId projectName folder now1 store0
            files none).store files none).store.filter
          fun e => e.2.projectId == projectId).map (fun e => e.1)
      = ((scanPipeline md5 jobId1 projectId projectName folder now1 store0
            files none).store.filter
          fun e => e.2.projectId == projectId).map (fun e => e.1)
    ∧ ∀ e ∈ (scanPipeline md5 jobId1 projectId projectName folder now1
        store0 files none).store, e.2.projectId = projectId →
        (storeGet (scanPipeline md5 jobId2 projectId projectName folder now2
            (scanPipeline md5 jobId1 projectId projectName folder now1
              store0 files none).store files none).store e.1).map
          (fun r => (r.suggestedName, r.renamed))
          = some (e.2.suggestedName, e.2.renamed) := by
  have hshape1 := scanPipeline_store_shape md5 jobId1 projectId projectName
    folder now1 store0 files hkeys hnodup
  have hpidstamp : ∀ x : ImageData,
      ((stampRecord projectId x).2.projectId == projectId) = true :=
    fun x => beq_self_eq_true projectId
  have hone : List.filter (fun e => !(e.2.projectId == projectId))
      (files.map fun f => stampRecord projectId
        (applyMark (buildBuckets md5 files)
          (scanRecord md5 projectId folder now1
            ((store0.filter fun e => e.2.projectId == projectId).map
              fun e => e.2) f))) = [] := by
    rw [List.filter_eq_nil_iff]
    intro e he
    obtain ⟨f, hf, rfl⟩ := List.mem_map.mp he
    rw [hpidstamp]
    simp
  have htwo : (clearProjectImagesMem projectId store0).filter
      (fun e => !(e.2.projectId == projectId))
      = clearProjectImagesMem projectId store0 := by
    rw [List.filter_eq_self]
    intro e he
    exact (List.mem_filter.mp he).2
  have hclear2 : clearProjectImagesMem projectId
      (scanPipeline md5 jobId1 projectId projectName folder now1 store0
        files none).store = clearProjectImagesMem projectId store0 := by
    rw [show clearProjectImagesMem projectId
        (scanPipeline md5 jobId1 projectId projectName folder now1 store0
          files none).store
        = (scanPipeline md5 jobId1 projectId projectName folder now1 store0
            files none).store.filter
          (fun e => !(e.2.projectId == projectId)) from rfl,
      hshape1, List.filter_append, hone, List.append_nil, htwo]
  have hfilter1 : (scanPipeline md5 jobId1 projectId projectName folder now1
      store0 files none).store.filter (fun e => e.2.projectId == projectId)
      = files.map fun f => stampRecord projectId
          (applyMark (buildBuckets md5 files)
            (scanRecord md5 projectId folder now1
              ((store0.filter fun e => e.2.projectId == projectId).map
                fun e => e.2) f)) := by
    rw [hshape1, List.filter_append]
    have hnil : (clearProjectImagesMem projectId store0).filter
        (fun e => e.2.projectId == projectId) = [] := by
      rw [List.filter_eq_nil_iff]
      intro e he
      have h2 := (List.mem_filter.mp he).2
      simp only [Bool.not_eq_true'] at h2
      simp [h2]
    have hself : (files.map fun f => stampRecord projectId
        (applyMark (buildBuckets md5 files)
          (scanRecord md5 projectId folder now1
            ((store0.filter fun e => e.2.projectId == projectId).map
              fun e => e.2) f))).filter
        (fun e => e.2.projectId == projectId)
        = files.map fun f => stampRecord projectId
            (applyMark (buildBuckets md5 files)
              (scanRecord md5 projectId folder now1
                ((store0.filter fun e => e.2.projectId == projectId).map
                  fun e => e.2) f)) := by
      rw [List.filter_eq_self]
      intro e he
      obtain ⟨f, hf, rfl⟩ := List.mem_map.mp he
      exact hpidstamp _
    rw [hnil, hself, List.nil_append]
  have hexist2 : ((scanPipeline md5 jobId1 projectId projectName folder now1
      store0 files none).store.filter
        fun e => e.2.projectId == projectId).map (fun e => e.2)
      = files.map fun f => (stampRecord projectId
          (applyMark (buildBuckets md5 files)
            (scanRecord md5 projectId folder now1
              ((store0.filter fun e => e.2.projectId == projectId).map
                fun e => e.2) f))).2 := by
    rw [hfilter1, List.map_map]
    rfl
  have hdisj2 : ∀ f ∈ files, ∀ e ∈ clearProjectImagesMem projectId
      (scanPipeline md5 jobId1 projectId projectName folder now1 store0
        files none).store,
      e.1 ≠ generateImageId (md5 f.bytes) f.name := by
    intro f hf e he
    rw [hclear2] at he
    exact hkeys f hf e he
  have hshape2 := scanPipeline_store_shape md5 jobId2 projectId projectName
    folder now2
    (scanPipeline md5 jobId1 projectId projectName folder now1 store0 files
      none).store files hdisj2 hnodup
  rw [hclear2] at hshape2
  simp only [hexist2] at hshape2
  refine ⟨?_, ?_, ?_⟩
  · rw [scanPipeline_imageCount, scanPipeline_imageCount]
  · have hkeymap : ∀ (now' : Nat) (existing : List ImageData),
        (files.map fun f => stampRecord projectId
          (applyMark (buildBuckets md5 files)
            (scanRecord md5 projectId folder now' existing f))).map
          (fun e => e.1) = scanIds md5 files := by
      intro now' existing
      rw [List.map_map]
      refine List.map_congr_left fun f _ => ?_
      exact scanRecord_gid md5 projectId folder now' existing
        (buildBuckets md5 files) f
    have hfilter2 : (scanPipeline md5 jobId2 projectId projectName folder
        now2 (scanPipeline md5 jobId1 projectId projectName folder now1
          store0 files none).store files none).store.filter
          (fun e => e.2.projectId == projectId)
        = files.map fun f => stampRecord projectId
            (applyMark (buildBuckets md5 files)
              (scanRecord md5 projectId folder now2
                (files.map fun g => (stampRecord projectId
                  (applyMark (buildBuckets md5 files)
                    (scanRecord md5 projectId folder now1
                      ((store0.filter fun e =>
                        e.2.projectId == projectId).map fun e => e.2)
                      g))).2) f)) := by
      rw [hshape2, List.filter_append]
      have hnil : (clearProjectImagesMem projectId store0).filter
          (fun e => e.2.projectId == projectId) = [] := by
        rw [List.filter_eq_nil_iff]
        intro e he
        have h2 := (List.mem_filter.mp he).2
        simp only [Bool.not_eq_true'] at h2
        simp [h2]
      rw [hnil, List.nil_append, List.filter_eq_self]
      intro e he
      obtain ⟨f, hf, rfl⟩ := List.mem_map.mp he
      exact hpidstamp _
    rw [hfilter1, hfilter2, hkeymap, hkeymap]
  · intro e he hpid
    set record1 : FsFile → ImageData := fun g =>
      (stampRecord projectId (applyMark (buildBuckets md5 files)
        (scanRecord md5 projectId folder now1
          ((store0.filter fun e => e.2.projectId == projectId).map
            fun e => e.2) g))).2 with hrecord1
    rw [hshape1] at he
    rcases List.mem_append.mp he with hc | hm
    · exfalso
      have h2 := (List.mem_filter.mp hc).2
      simp only [Bool.not_eq_true'] at h2
      rw [hpid] at h2
      simp at h2
    · obtain ⟨f, hf, rfl⟩ := List.mem_map.mp hm
      have hkey : (stampRecord projectId
          (applyMark (buildBuckets md5 files)
            (scanRecord md5 projectId folder now1
              ((store0.filter fun e => e.2.projectId == projectId).map
                fun e => e.2) f))).1
          = generateImageId (md5 f.bytes) f.name :=
        scanRecord_gid md5 projectId folder now1 _ (buildBuckets md5 files) f
      rw [hkey]
      have hsg : storeGet (scanPipeline md5 jobId2 projectId projectName
          folder now2 (scanPipeline md5 jobId1 projectId projectName folder
            now1 store0 files none).store files none).store
          (generateImageId (md5 f.bytes) f.name)
          = ((scanPipeline md5 jobId2 projectId projectName folder now2
              (scanPipeline md5 jobId1 projectId projectName folder now1
                store0 files none).store files none).store.find?
              (fun e2 => e2.1 == generateImageId (md5 f.bytes) f.name)).map
            (fun e2 => e2.2) := rfl
      rw [hsg, hshape2, List.find?_append]
      have hnone : (clearProjectImagesMem projectId store0).find?
          (fun e2 => e2.1 == generateImageId (md5 f.bytes) f.name)
          = none := by
        rw [List.find?_eq_none]
        intro x hx
        simp [hkeys f hf x hx]
      rw [hnone, Option.none_or]
      have hgid2 : ∀ y : FsFile, (stampRecord projectId
          (applyMark (buildBuckets md5 files)
            (scanRecord md5 projectId folder now2 (files.map record1)
              y))).1
          = generateImageId (md5 y.bytes) y.name :=
        fun y => scanRecord_gid md5 projectId folder now2 _
          (buildBuckets md5 files) y
      have hfind2 : (files.map fun y => stampRecord projectId
          (applyMark (buildBuckets md5 files)
            (scanRecord md5 projectId folder now2 (files.map record1)
              y))).find?
          (fun e2 => e2.1 == generateImageId (md5 f.bytes) f.name)
          = some (stampRecord projectId
              (applyMark (buildBuckets md5 files)
                (scanRecord md5 projectId folder now2 (files.map record1)
                  f))) := by
        refine find?_map_unique _ _ f _ hf ?_ ?_
        · rw [hgid2 f]
          exact beq_self_eq_true _
        · intro y hy hpy
          rw [hgid2 y] at hpy
          have hyy := beq_iff_eq.mp hpy
          have hyf2 : y = f := List.inj_on_of_nodup_map hnodup hy hf hyy
          rw [hyf2]
      rw [hfind2]
      have hrec_hash : ∀ g ∈ files, (record1 g).hash = md5 g.bytes := by
        intro g _
        simp only [hrecord1]
        rw [stampRecord_snd_hash, applyMark_hash, scanRecord_hash]
      have hrec_path : ∀ g ∈ files,
          (record1 g).path = folder ++ "/" ++ g.name := by
        intro g _
        simp only [hrecord1]
        rw [stampRecord_snd_path, applyMark_path, scanRecord_path]
      have hmerge := scanRecord_rescan md5 projectId folder now2 files
        record1 f hf hnames hrec_hash hrec_path (hmd5 f hf)
      simp only [Option.map_some', stampRecord_snd_suggestedName,
        stampRecord_snd_renamed, applyMark_suggestedName, applyMark_renamed]
      rw [hmerge.1, hmerge.2]
      simp only [hrecord1, stampRecord_snd_suggestedName,
        stampRecord_snd_renamed, applyMark_suggestedName, applyMark_renamed]

/-- Witness for C5: a two-file folder scanned twice from an empty store
under a concrete content-hash function. -/
theorem C5_witness :
    ([⟨"a.jpg", [1]⟩, ⟨"b.jpg", [2]⟩] : List FsFile).Pairwise
        (fun a b => a.name ≠ b.name)
    ∧ ((scanPipeline
          (fun bs => "h" ++ Nat.repr (bs.foldl (fun a b => a * 100 + b) 0))
          "j2" "p" "proj" "dir" 8
          (scanPipeline
            (fun bs => "h" ++ Nat.repr (bs.foldl (fun a b => a * 100 + b) 0))
            "j1" "p" "proj" "dir" 7 []
            [⟨"a.jpg", [1]⟩, ⟨"b.jpg", [2]⟩] none).store
          [⟨"a.jpg", [1]⟩, ⟨"b.jpg", [2]⟩] none).imageCount
        = (scanPipeline
            (fun bs => "h" ++ Nat.repr (bs.foldl (fun a b => a * 100 + b) 0))
            "j1" "p" "proj" "dir" 7 []
            [⟨"a.jpg", [1]⟩, ⟨"b.jpg", [2]⟩] none).imageCount
      ∧ ((scanPipeline
            (fun bs => "h" ++ Nat.repr (bs.foldl (fun a b => a * 100 + b) 0))
            "j2" "p" "proj" "dir" 8
            (scanPipeline
              (fun bs => "h" ++ Nat.repr (bs.foldl (fun a b => a * 100 + b) 0))
              "j1" "p" "proj" "dir" 7 []
              [⟨"a.jpg", [1]⟩, ⟨"b.jpg", [2]⟩] none).store
            [⟨"a.jpg", [1]⟩, ⟨"b.jpg", [2]⟩] none).store.filter
            fun e => e.2.projectId == "p").map (fun e => e.1)
        = ((scanPipeline
            (fun bs => "h" ++ Nat.repr (bs.foldl (fun a b => a * 100 + b) 0))
            "j1" "p" "proj" "dir" 7 []
            [⟨"a.jpg", [1]⟩, ⟨"b.jpg", [2]⟩] none).store.filter
            fun e => e.2.projectId == "p").map (fun e => e.1)
      ∧ ∀ e ∈ (scanPipeline
            (fun bs => "h" ++ Nat.repr (bs.foldl (fun a b => a * 100 + b) 0))
            "j1" "p" "proj" "dir" 7 []
            [⟨"a.jpg", [1]⟩, ⟨"b.jpg", [2]⟩] none).store,
          e.2.projectId = "p" →
          (storeGet (scanPipeline
              (fun bs => "h" ++ Nat.repr (bs.foldl (fun a b => a * 100 + b) 0))
              "j2" "p" "proj" "dir" 8
              (scanPipeline
                (fun bs =>
                  "h" ++ Nat.repr (bs.foldl (fun a b => a * 100 + b) 0))
                "j1" "p" "proj" "dir" 7 []
                [⟨"a.jpg", [1]⟩, ⟨"b.jpg", [2]⟩] none).store
              [⟨"a.jpg", [1]⟩, ⟨"b.jpg", [2]⟩] none).store e.1).map
            (fun r => (r.suggestedName, r.renamed))
            = some (e.2.suggestedName, e.2.renamed)) :=
  ⟨by simp [List.pairwise_cons],
    C5_rescan_idempotent
      (fun bs => "h" ++ Nat.repr (bs.foldl (fun a b => a * 100 + b) 0))
      "j1" "j2" "p" "proj" "dir" 7 8 [] [⟨"a.jpg", [1]⟩, ⟨"b.jpg", [2]⟩]
      (by simp [List.pairwise_cons]) (by decide) (by decide) (by decide)⟩

end AIImageRenamer
